import Mathlib

/-!
# Verification of reportbro-lib layout/context logic

Shallow embedding of the parts of `jobsta/reportbro-lib` (Python) that the
checked claims are about:

* `reportbro/context.py` — parameter substitution (`Context.fill_parameters`),
  expression rewriting (`Context.replace_parameters`), aggregate evaluation
  (`Context.evaluate_parameter_func`), value formatting
  (`Context.get_formatted_value`).
* `reportbro/containers.py` — `Container.create_render_elements`,
  `Container.get_offset_y`, `Container.reset`.
* `reportbro/docelement.py` — `DocElementBase.get_offset_y`,
  `has_uncompleted_predecessor`, `is_predecessor`, the base
  `DocElement.get_next_render_element`.
* `reportbro/elements.py` — `TextElement.get_next_render_element`,
  `TableElement.init_group_rows`, `TableBandElement` group-band state machine,
  `SectionBandElement.create_render_elements`,
  `SectionElement.get_next_render_element`.
* `reportbro/reportbro.py` — the `DocumentPDFRenderer.render` pagination loop.

Python strings are embedded as `List Char`, Python `None`-able values as
`Option`, numeric coordinates as `ℚ` (the Python code computes with floats but
only uses `+`, `-`, `min`, `max`, `/2` and comparisons, which ℚ models
exactly), and raised exceptions as `Except`.
-/

namespace ReportBro

/-- Python `Error` dict from `reportbro/errors.py` (`Error.__init__`):
`msg_key`, `object_id`, `field`, `info`, `context` (string context only kept
where the claims need it). -/
structure PyError where
  msg_key : String
  object_id : Option Int := none
  field : Option String := none
  info : Option String := none
  deriving Repr, DecidableEq

/-- The exception channel of the embedded code: `ReportBroError` and
`ReportBroInternalError` from `reportbro/errors.py`, plus raw Python
exceptions that are not caught anywhere (here: `ZeroDivisionError`, raised by
`total / len(items)` in `Context.evaluate_parameter_func`). -/
inductive RBExc where
  | reportBroError (error : PyError)
  | reportBroInternalError (msg : String)
  | zeroDivisionError
  deriving Repr, DecidableEq

/-- `ParameterType` from `reportbro/enums.py`. -/
inductive ParameterType where
  | none_ | string | number | boolean | date | array | simple_array | map
  | rich_text | image | sum | average
  deriving Repr, DecidableEq

/-! ## Context: parameter lookup model

`Context.get_parameter` resolves a name through the context stack (with `.`
map access and `source:` prefixes); `Context.get_parameter_data` then returns
`(value, value_exists)`.  The claims about `fill_parameters`,
`replace_parameters` and `evaluate_parameter_func` only depend on the
*outcome* of resolution, so the context stack is abstracted into an
environment mapping a parameter name to the resolved parameter (or `none`
when `get_parameter` returns `None`). -/

/-- The fields of `structs.Parameter` read by the embedded context functions:
`id`, `name`, `type`, `array_item_type`, `expression`, `pattern`,
`pattern_has_currency` (computed as `'$' in self.pattern` in
structs.py:57) and the `range_stack` driving `get_range`. -/
structure Parameter where
  id : Int
  name : String
  ptype : ParameterType
  array_item_type : ParameterType
  expression : List Char
  pattern : List Char
  pattern_has_currency : Bool
  range_stack : List (Int × Int)
  deriving Repr, DecidableEq

/-- Default field values mirroring `Parameter.__init__` for data without the
respective keys. -/
def mkParameter (id : Int) (ptype : ParameterType) : Parameter :=
  { id := id, name := "", ptype := ptype, array_item_type := ParameterType.none_,
    expression := [], pattern := [], pattern_has_currency := false, range_stack := [] }

/-- `Parameter.get_range` (structs.py lines 109-112): top of the range stack,
or `(None, None)` (here `none`) when the stack is empty. -/
def Parameter.get_range (p : Parameter) : Option (Int × Int) :=
  p.range_stack.getLast?

/-- Resolution outcome for one parameter name: the parameter instance, whether
`parameter.name in param_ref.data` holds (`value_exists` of
`Context.get_parameter_data`) and the stored value (`none` = Python `None`).
`V` is the type of stored data values. -/
structure ParamEntry (V : Type) where
  parameter : Parameter
  value_exists : Bool
  value : Option V
  deriving Repr, DecidableEq

/-- Abstracted `Context.get_parameter`: `none` = unresolved name. -/
def Env (V : Type) : Type := List Char → Option (ParamEntry V)

/-- `Context.get_parameter_data` (context.py lines 139-152) restricted to the
plain-data branch (`parameter.name in param_ref.data`); the
`range_count`/`is_range_function` branch is `evaluate_parameter_func`, which
is embedded separately. -/
def get_parameter_data {V : Type} (entry : ParamEntry V) : Option V × Bool :=
  if entry.value_exists then (entry.value, true) else (none, false)

/-! ## Context.replace_parameters (context.py lines 381-420)

The Python function scans `expr` with `expr.find('${')` / `expr.find('}')`
indices.  The embedding scans the character list directly; both consume, for
each occurrence of `"${"`, the characters up to the next `'}'` as the
parameter name and copy everything else verbatim, and when no `'}'` follows a
`"${"` the remainder of the string is copied unchanged. -/

/-- Split a character list at the first `'}'`:
`some (name, rest)` with the list being `name ++ '}' :: rest`,
or `none` when no `'}'` occurs (Python `expr.find('}', pos) == -1`). -/
def splitAtBrace : List Char → Option (List Char × List Char)
  | [] => none
  | c :: cs =>
    if c = '}' then some ([], cs)
    else match splitAtBrace cs with
      | some (name, rest) => some (c :: name, rest)
      | none => none

theorem splitAtBrace_length {l name rest : List Char}
    (h : splitAtBrace l = some (name, rest)) : rest.length < l.length := by
  induction l generalizing name rest with
  | nil => simp [splitAtBrace] at h
  | cons c cs ih =>
    by_cases hc : c = '}'
    · simp [splitAtBrace, hc] at h
      simp [← h.2]
    · simp only [splitAtBrace, if_neg hc] at h
      cases hs : splitAtBrace cs with
      | none => simp [hs] at h
      | some p =>
        obtain ⟨a, b⟩ := p
        simp [hs] at h
        have := ih hs
        simp [← h.2]
        omega

/-- `parameter_name.replace('.', '_').replace(':', '_')` (context.py:406). -/
def sanitizeName (name : List Char) : List Char :=
  name.map (fun c => if c = '.' ∨ c = ':' then '_' else c)

/-- The `data` dict built up by `replace_parameters`: maps an identifier to
the value bound for it (`some none` = bound to Python `None`). -/
def DataDict (V : Type) : Type := List Char → Option (Option V)

def DataDict.insert {V : Type} (d : DataDict V) (k : List Char) (v : Option V) :
    DataDict V :=
  fun n => if n = k then some v else d n

/-- `Context.replace_parameters` (context.py lines 381-420): rewrite each
`${name}` token into the sanitized identifier, bind the identifier in `data`
to the parameter's current value — or to `None` when `get_parameter` returns
`None` (context.py lines 407-410: `if param_ref: value, _ = ... else: value =
None`) — and return the rewritten expression together with the updated
`data` dict. -/
def replace_parameters {V : Type} (env : Env V) :
    List Char → DataDict V → List Char × DataDict V
  | [], data => ([], data)
  | '$' :: '{' :: rest, data =>
    match h : splitAtBrace rest with
    | some (name, after) =>
      let ident := sanitizeName name
      let value : Option V :=
        match env name with
        | some entry => (get_parameter_data entry).1
        | none => none
      let r := replace_parameters env after (data.insert ident value)
      (ident ++ r.1, r.2)
    | none => ('$' :: '{' :: rest, data)
  | c :: rest, data =>
    let r := replace_parameters env rest data
    (c :: r.1, r.2)
  termination_by expr _ => expr.length
  decreasing_by
  · simpa using Nat.lt_succ_of_lt (Nat.lt_succ_of_lt (splitAtBrace_length h))
  · simp

/-! ## Context.evaluate_parameter_func (context.py lines 282-322) -/

/-- `Context.strip_parameter_name` (context.py lines 324-328):
`expr.strip().lstrip('${').rstrip('}')`. -/
def strip_parameter_name (expr : List Char) : List Char :=
  (((expr.dropWhile (fun c => c = ' ')).reverse.dropWhile (fun c => c = ' ')).reverse.dropWhile
      (fun c => c = '$' ∨ c = '{')).reverse.dropWhile (fun c => c = '}') |>.reverse

/-- Python list slice `items[a:b]` for integer bounds: negative indices wrap
by the length, then both bounds are clamped to `[0, len]`. -/
def pySlice {α : Type} (items : List α) (a b : Int) : List α :=
  let n : Int := items.length
  let norm : Int → Int := fun i =>
    let i := if i < 0 then i + n else i
    if i < 0 then 0 else if i > n then n else i
  let a' := norm a
  let b' := norm b
  (items.take (b'.toNat)).drop (a'.toNat)

/-- One row of the referenced array parameter: lookup of a field returns
`some q` when `item.get(parameter_field)` is a `decimal.Decimal` with value
`q`, `none` when the field is missing or not a `Decimal` (both cases fail the
`isinstance(item_value, decimal.Decimal)` check in context.py:311). -/
def ItemRow : Type := List Char → Option ℚ

/-- Sum the `parameter_field` values of the items, failing like the loop in
context.py lines 309-315 when an item value is not a `Decimal`. -/
def sumItems (errParam : Parameter) (field : List Char) :
    List ItemRow → Except RBExc ℚ
  | [] => .ok 0
  | item :: rest => do
    match item field with
    | some q =>
      let total ← sumItems errParam field rest
      .ok (q + total)
    | none =>
      .error (.reportBroError
        { msg_key := "errorMsgInvalidAvgSumExpression", object_id := some errParam.id,
          field := some "expression" })

/-- `Context.evaluate_parameter_func` (context.py lines 282-322).  The
referenced array parameter is resolved through `env`; its stored value is the
list of item rows (`none` in the entry = the stored value is not a list,
failing the `isinstance(items, list)` check). -/
def evaluate_parameter_func (env : Env (Option (List ItemRow)))
    (parameter : Parameter) : Except RBExc (Option ℚ × Bool) :=
  let invalid : Except RBExc (Option ℚ × Bool) :=
    .error (.reportBroError
      { msg_key := "errorMsgInvalidAvgSumExpression", object_id := some parameter.id,
        field := some "expression" })
  let expr := strip_parameter_name parameter.expression
  match splitAtDot expr with
  | none => invalid
  | some (parameter_name, parameter_field) =>
    match env parameter_name with
    | none => invalid
    | some param_ref =>
      if param_ref.parameter.ptype ≠ ParameterType.array then invalid
      else
        match get_parameter_data param_ref with
        | (some (some items), true) => do
          let items :=
            match param_ref.parameter.get_range with
            | some (start, end_) =>
              pySlice items start (if end_ = -1 then items.length else end_)
            | none => items
          let total ← sumItems parameter parameter_field items
          if parameter.ptype = ParameterType.average then
            -- Python `total / len(items)` raises ZeroDivisionError on an
            -- empty list
            if items.length = 0 then .error .zeroDivisionError
            else .ok (some (total / items.length), true)
          else if parameter.ptype = ParameterType.sum then
            .ok (some total, true)
          else
            .ok (none, true)
        | _ => invalid
where
  /-- `expr.find('.')` split: `parameter_name = expr[:pos]`,
  `parameter_field = expr[pos+1:]` (context.py lines 284-291). -/
  splitAtDot : List Char → Option (List Char × List Char)
    | [] => none
    | c :: cs =>
      if c = '.' then some ([], cs)
      else match splitAtDot cs with
        | some (a, b) => some (c :: a, b)
        | none => none

/-! ## Context.get_formatted_value (context.py lines 334-379)

Number/date formatting is delegated to babel (`format_decimal` /
`format_datetime`), an external collaborator per spec §6; it is a parameter
of the embedding.  A failed call models babel raising `ValueError`. -/

/-- External formatter interface (spec §6) plus Python built-in `str`.
Values of type `V` are opaque data values. -/
structure Formatter (V : Type) where
  /-- `babel.numbers.format_decimal value pattern locale`; `.error ()` models
  a raised `ValueError`. -/
  format_decimal : V → List Char → List Char → Except Unit (List Char)
  /-- `babel.dates.format_datetime value pattern locale`. -/
  format_datetime : V → List Char → List Char → Except Unit (List Char)
  /-- Python `str(value)`. -/
  toStr : V → List Char
  /-- `isinstance(value, str)` paired with the string content: `some s` iff
  the value is a Python `str` holding `s`. -/
  asString : V → Option (List Char)

/-- The `Context` fields read by formatting: `pattern_locale` and
`pattern_currency_symbol` (context.py lines 31-32). -/
structure CtxLocale where
  pattern_locale : List Char
  pattern_currency_symbol : List Char

/-- Python `value.replace('$', symbol)` on the formatted string
(context.py:357). -/
def replaceCurrency (s symbol : List Char) : List Char :=
  s.flatMap (fun c => if c = '$' then symbol else [c])

/-- `Context.get_formatted_value` (context.py lines 334-379).  `pattern` is
the optional `pattern` argument (Python default `None`); an empty string is
falsy, like in Python (`if used_pattern:`). -/
def get_formatted_value {V : Type} (fmt : Formatter V) (loc : CtxLocale)
    (value : V) (parameter : Parameter) (object_id : Int)
    (pattern : Option (List Char)) (is_array_item : Bool) :
    Except RBExc (List Char) :=
  let value_type :=
    if is_array_item ∧ parameter.ptype = ParameterType.simple_array then
      parameter.array_item_type
    else parameter.ptype
  if value_type = ParameterType.string then
    match fmt.asString value with
    | some s => .ok s
    | none =>
      .error (.reportBroInternalError
        ("value of parameter " ++ parameter.name ++ " must be str type"))
  else if value_type = ParameterType.number ∨ value_type = ParameterType.average ∨
      value_type = ParameterType.sum then
    -- `if pattern:`  (a passed pattern that is empty is falsy)
    let passed := match pattern with
      | some p => if p ≠ [] then some p else none
      | none => none
    let used_pattern := match passed with
      | some p => p
      | none => parameter.pattern
    let pattern_has_currency := match passed with
      | some p => p.contains '$'
      | none => parameter.pattern_has_currency
    if used_pattern ≠ [] then
      match fmt.format_decimal value used_pattern loc.pattern_locale with
      | .ok s =>
        .ok (if pattern_has_currency then replaceCurrency s loc.pattern_currency_symbol else s)
      | .error _ =>
        let error_object_id := if passed.isSome then object_id else parameter.id
        .error (.reportBroError
          { msg_key := "errorMsgInvalidPattern", object_id := some error_object_id,
            field := some "pattern" })
    else
      .ok (fmt.toStr value)
  else if value_type = ParameterType.date then
    let passed := match pattern with
      | some p => if p ≠ [] then some p else none
      | none => none
    let used_pattern := match passed with
      | some p => p
      | none => parameter.pattern
    if used_pattern ≠ [] then
      match fmt.format_datetime value used_pattern loc.pattern_locale with
      | .ok s => .ok s
      | .error _ =>
        let error_object_id := if passed.isSome then object_id else parameter.id
        .error (.reportBroError
          { msg_key := "errorMsgInvalidPattern", object_id := some error_object_id,
            field := some "pattern" })
    else
      .ok (fmt.toStr value)
  else if value_type = ParameterType.rich_text then
    .ok (fmt.toStr value)
  else
    .ok []

/-! ## Context.fill_parameters (context.py lines 183-252)

The Python function is a single left-to-right character scan with state
`prev_c` (previous character), `parameter_index` (`-1` outside a `${...}`
token, otherwise the start of the name) and the accumulator `rv`.  The
embedding carries the same state; instead of an index into the string it
accumulates the token name characters directly (`acc = some name` inside a
token).  The write-only `replaced_parameters` accumulator (an optional list
the caller may pass to collect which parameters were substituted) is omitted:
it does not influence the returned string or the raised errors. -/

/-- `expr.find('${') == -1` (context.py:202). -/
def hasDollarBrace : List Char → Bool
  | '$' :: '{' :: _ => true
  | _ :: rest => hasDollarBrace rest
  | [] => false

/-- The body of the `for i, c in enumerate(expr)` loop of `fill_parameters`
(context.py lines 207-251). -/
def fillLoop {V : Type} (env : Env V) (fmt : Formatter V) (loc : CtxLocale)
    (object_id : Int) (field : String) (pattern : Option (List Char))
    (parameter_type : Option ParameterType) (ignore_pattern : Bool) :
    List Char → Option Char → Option (List Char) → List Char →
    Except RBExc (List Char)
  | [], _, _, rv => .ok rv
  | c :: rest, prev_c, none, rv =>
    if prev_c = some '$' ∧ c = '{' then
      -- token start: `parameter_index = i + 1; rv = rv[:-1]`
      fillLoop env fmt loc object_id field pattern parameter_type ignore_pattern
        rest (some c) (some []) rv.dropLast
    else
      fillLoop env fmt loc object_id field pattern parameter_type ignore_pattern
        rest (some c) none (rv ++ [c])
  | c :: rest, _, some nameAcc, rv =>
    if c = '}' then
      match env nameAcc with
      | none =>
        .error (.reportBroError
          { msg_key := "errorMsgInvalidExpressionNameNotDefined",
            object_id := some object_id, field := some field,
            info := some (String.mk nameAcc) })
      | some param_ref =>
        if parameter_type = none ∨ parameter_type = some param_ref.parameter.ptype then
          match get_parameter_data param_ref with
          | (_, false) =>
            .error (.reportBroError
              { msg_key := "errorMsgMissingParameterData",
                object_id := some object_id, field := some field,
                info := some (String.mk nameAcc) })
          | (none, true) =>
            -- `if value is not None:` — a `None` value contributes nothing
            fillLoop env fmt loc object_id field pattern parameter_type ignore_pattern
              rest (some c) none rv
          | (some v, true) =>
            -- rich-text parameter surrounded by a lone `<p>...</p>`
            if param_ref.parameter.ptype = ParameterType.rich_text ∧
                (fmt.toStr v).take 2 = ['<', 'p'] ∧ rv = ['<', 'p', '>'] ∧
                rest = ['<', '/', 'p', '>'] then
              .ok (fmt.toStr v)
            else if ignore_pattern then
              -- context.py:243 assigns (`rv = str(value)`), not appends
              fillLoop env fmt loc object_id field pattern parameter_type ignore_pattern
                rest (some c) none (fmt.toStr v)
            else do
              let fv ← get_formatted_value fmt loc v param_ref.parameter object_id pattern false
              fillLoop env fmt loc object_id field pattern parameter_type ignore_pattern
                rest (some c) none (rv ++ fv)
        else
          -- type filter set and not matching: token is copied back verbatim
          fillLoop env fmt loc object_id field pattern parameter_type ignore_pattern
            rest (some c) none (rv ++ '$' :: '{' :: nameAcc ++ ['}'])
    else
      fillLoop env fmt loc object_id field pattern parameter_type ignore_pattern
        rest (some c) (some (nameAcc ++ [c])) rv

/-- `Context.fill_parameters` (context.py lines 183-252). -/
def fill_parameters {V : Type} (env : Env V) (fmt : Formatter V) (loc : CtxLocale)
    (expr : List Char) (object_id : Int) (field : String)
    (pattern : Option (List Char)) (parameter_type : Option ParameterType)
    (ignore_pattern : Bool) : Except RBExc (List Char) :=
  if ¬hasDollarBrace expr then .ok expr
  else
    fillLoop env fmt loc object_id field pattern parameter_type ignore_pattern
      expr none none []

/-! ## Container pagination (containers.py, docelement.py)

Elements live in an arena indexed by their id; predecessor/successor
relations are id lists.  The embedded element kinds are the base
`DocElement` (docelement.py lines 99-114: a fixed-height box that renders
completely when it fits in the remaining height and defers otherwise) and
`PageBreakElement` (elements.py lines 193-200).  `printed` is the evaluated
`is_printed(ctx)` print condition.  Coordinates are `ℚ`. -/

/-- Render state of one document element: the `DocElementBase`/`DocElement`
attributes used by `Container.create_render_elements` (docelement.py lines
8-25, 99-106). -/
structure Elem where
  id : Nat
  y : ℚ
  height : ℚ
  /-- `self.bottom = self.y + self.height` for a `DocElement`;
  `bottom = y` for a `PageBreakElement` (via `DocElementBase`). -/
  bottom : ℚ
  sort_order : Nat
  isPageBreak : Bool
  printed : Bool
  remove_empty_element : Bool
  first_render_element : Bool
  rendering_complete : Bool
  render_y : ℚ
  render_bottom : ℚ
  predecessors : List Nat
  successors : List Nat
  deriving Repr, DecidableEq

/-- Element arena: id → element state. -/
def Arena : Type := Nat → Elem

def Arena.set (ar : Arena) (eid : Nat) (e : Elem) : Arena :=
  fun i => if i = eid then e else ar i

/-- `DocElementBase.is_predecessor` (docelement.py lines 27-37). -/
def is_predecessor (ar : Arena) (self other : Elem) : Bool :=
  self.y ≥ other.bottom &&
    (match self.predecessors with
     | [] => true
     | first :: _ => other.bottom > (ar first).y)

/-- `DocElementBase.add_predecessor` (docelement.py lines 39-41). -/
def add_predecessor (ar : Arena) (selfId predId : Nat) : Arena :=
  let ar := ar.set selfId
    { ar selfId with predecessors := (ar selfId).predecessors ++ [predId] }
  ar.set predId { ar predId with successors := (ar predId).successors ++ [selfId] }

/-- `DocElementBase.has_uncompleted_predecessor` (docelement.py lines 43-48);
`completed` is the per-call `completed_elements` id set. -/
def has_uncompleted_predecessor (ar : Arena) (e : Elem) (completed : List Nat) : Bool :=
  e.predecessors.any
    (fun p => !(completed.contains p) || !(ar p).rendering_complete)

/-- The `for predecessor in self.predecessors` loop of
`DocElementBase.get_offset_y` (docelement.py lines 56-63), accumulating
`(max_bottom, min_predecessor_dist)`. -/
def offsetFold (ar : Arena) (y : ℚ) : List Nat → ℚ × Option ℚ → ℚ × Option ℚ
  | [], acc => acc
  | pid :: rest, acc =>
    let p := ar pid
    let max_bottom := if p.render_bottom > acc.1 then p.render_bottom else acc.1
    let dist := y - p.bottom
    let min_dist := match acc.2 with
      | none => some dist
      | some m => if dist < m then some dist else some m
    offsetFold ar y rest (max_bottom, min_dist)

/-- `DocElementBase.get_offset_y` (docelement.py lines 50-64): highest
predecessor `render_bottom` plus the minimum distance `self.y -
predecessor.bottom` over the predecessors (`if min_predecessor_dist` is
Python truthiness: `None` and `0` both contribute nothing). -/
def elem_get_offset_y (ar : Arena) (e : Elem) : ℚ :=
  let r := offsetFold ar e.y e.predecessors (0, none)
  r.1 + (match r.2 with
    | none => 0
    | some d => if d = 0 then 0 else d)

/-- `DocElementBase.clear_predecessor` (docelement.py lines 66-68): removes
the first matching entry, like Python `list.remove`. -/
def clear_predecessor (e : Elem) (pid : Nat) : Elem :=
  { e with predecessors := e.predecessors.erase pid }

/-- `DocElementBase.finish_empty_element` (docelement.py lines 78-83). -/
def finish_empty_element (e : Elem) (offset_y : ℚ) : Elem :=
  { e with
    render_bottom := if e.remove_empty_element then offset_y else offset_y + e.height
    rendering_complete := true }

/-- `DocElement.get_next_render_element` (docelement.py lines 108-114), the
base element behaviour: render completely when the whole box fits, defer
otherwise.  Returns the updated element, whether a render slice was produced
(the element itself) and the completion flag. -/
def get_next_render_element_base (e : Elem) (offset_y container_height : ℚ) :
    Elem × Bool × Bool :=
  if offset_y + e.height ≤ container_height then
    ({ e with
        render_y := offset_y
        render_bottom := offset_y + e.height
        rendering_complete := true }, true, true)
  else (e, false, false)

/-- One entry of `Container.render_elements`: a produced render slice
(identified by its element id) or the `PageBreakElement(..., y=-1)` marker
appended at a page break (containers.py:158). -/
inductive RenderEntry where
  | elem (id : Nat)
  | pageBreakMarker
  deriving Repr, DecidableEq

/-- `Container` state (containers.py lines 6-29): the owned elements, the
transient `sorted_elements` / `render_elements` lists and the bookkeeping
fields. -/
structure Container where
  allow_page_break : Bool
  doc_elements : List Nat
  arena : Arena
  sorted_elements : List Nat
  render_elements : List RenderEntry
  render_elements_created : Bool
  manual_page_break : Bool
  first_element_offset_y : ℚ
  max_bottom : ℚ
  render_bottom : ℚ

/-- `Container.get_offset_y` (containers.py lines 72-88). -/
def Container.get_offset_y (c_first_element_offset_y : ℚ) (ar : Arena)
    (e : Elem) : ℚ :=
  match e.predecessors with
  | _ :: _ => elem_get_offset_y ar e
  | [] =>
    if e.first_render_element then
      let offset_y := e.y - c_first_element_offset_y
      if offset_y < 0 then 0 else offset_y
    else 0

/-- Per-call loop state of `create_render_elements` (containers.py lines
91-98): `processed` holds the ids of elements completed during this call
(`processed_elements` and the `completed_elements` dict have the same
members). -/
structure CRState where
  arena : Arena
  render_elements : List RenderEntry
  render_elements_created : Bool
  processed : List Nat
  max_bottom : ℚ
  render_bottom : ℚ
  next_offset_y : Option ℚ
  manual_page_break : Bool

/-- Result of the `while` loop of `create_render_elements`: either the early
`return True` taken when a page break is found in a non-breaking container
(containers.py lines 113-115, which clears `sorted_elements`), or the normal
exit with the remaining `sorted_elements`. -/
inductive CRLoopResult where
  | pageBreakForbidden (st : CRState)
  | normal (remaining : List Nat) (st : CRState)

/-- Loop state carried by either loop outcome. -/
def CRLoopResult.state : CRLoopResult → CRState
  | .pageBreakForbidden st => st
  | .normal _ st => st

/-- The `while not new_page and i < len(self.sorted_elements)` loop of
`Container.create_render_elements` (containers.py lines 99-152). -/
def crLoop (allow_page_break : Bool) (container_height first_element_offset_y : ℚ) :
    List Nat → CRState → CRLoopResult
  | [], st => .normal [] st
  | eid :: rest, st =>
    let e := st.arena eid
    if has_uncompleted_predecessor st.arena e st.processed then
      -- a predecessor is not completed yet -> start new page
      .normal (eid :: rest) st
    else if e.isPageBreak then
      if allow_page_break then
        .normal rest
          { st with manual_page_break := true, next_offset_y := some e.y }
      else
        .pageBreakForbidden st
    else
      let offset_y := Container.get_offset_y first_element_offset_y st.arena e
      if e.printed then
        if offset_y ≥ container_height then
          -- new page before attempting to render; the element stays
          .normal (eid :: rest)
            { st with next_offset_y :=
                match st.next_offset_y with
                | none => some e.y
                | some v => some v }
        else
          let r := get_next_render_element_base e offset_y container_height
          let st :=
            { st with
              arena := st.arena.set eid r.1
              render_elements :=
                if r.2.1 then st.render_elements ++ [RenderEntry.elem eid]
                else st.render_elements
              render_elements_created :=
                if r.2.1 then true else st.render_elements_created
              max_bottom :=
                if r.2.1 ∧ r.1.bottom > st.max_bottom then r.1.bottom
                else st.max_bottom
              render_bottom :=
                if r.2.1 ∧ r.1.render_bottom > st.render_bottom then r.1.render_bottom
                else st.render_bottom }
          if r.2.2 then
            crLoop allow_page_break container_height first_element_offset_y rest
              { st with processed := st.processed ++ [eid] }
          else
            let st :=
              { st with next_offset_y :=
                  match st.next_offset_y with
                  | none => some e.y
                  | some v => some v }
            match crLoop allow_page_break container_height first_element_offset_y rest st with
            | .normal rem st' => .normal (eid :: rem) st'
            | .pageBreakForbidden st' => .pageBreakForbidden st'
      else
        let st := { st with arena := st.arena.set eid (finish_empty_element e offset_y) }
        crLoop allow_page_break container_height first_element_offset_y rest
          { st with processed := st.processed ++ [eid] }

/-- The post-loop predecessor clearing (containers.py lines 159-163). -/
def clearPredecessors (ar : Arena) (processed : List Nat) : Arena :=
  processed.foldl
    (fun ar1 pid =>
      (ar1 pid).successors.foldl
        (fun ar2 sid => ar2.set sid (clear_predecessor (ar2 sid) pid))
        ar1)
    ar

/-- `Container.create_render_elements` (containers.py lines 90-164).
`container_top` is received but only forwarded to the elements'
`get_next_render_element` (the base element ignores it). -/
def Container.create_render_elements (c : Container)
    (container_top container_height : ℚ) : Container × Bool :=
  let st0 : CRState :=
    { arena := c.arena, render_elements := c.render_elements,
      render_elements_created := false, processed := [],
      max_bottom := c.max_bottom, render_bottom := c.render_bottom,
      next_offset_y := none, manual_page_break := false }
  match crLoop c.allow_page_break container_height c.first_element_offset_y
      c.sorted_elements st0 with
  | .pageBreakForbidden st =>
    -- `self.sorted_elements = []; return True`, skipping the post-loop steps
    ({ c with
        arena := st.arena
        sorted_elements := []
        render_elements := st.render_elements
        render_elements_created := st.render_elements_created
        manual_page_break := false
        max_bottom := st.max_bottom
        render_bottom := st.render_bottom }, true)
  | .normal remaining st =>
    let first_off : ℚ :=
      match st.next_offset_y with
      | some v => if v ≠ 0 then v else 0
      | none => 0
    let render_elements :=
      if remaining ≠ [] ∧ c.allow_page_break then
        st.render_elements ++ [RenderEntry.pageBreakMarker]
      else st.render_elements
    let arena :=
      if remaining ≠ [] then clearPredecessors st.arena st.processed
      else st.arena
    ({ c with
        arena := arena
        sorted_elements := remaining
        render_elements := render_elements
        render_elements_created := st.render_elements_created
        manual_page_break := st.manual_page_break
        first_element_offset_y := first_off
        max_bottom := st.max_bottom
        render_bottom := st.render_bottom },
     remaining.isEmpty)

/-- Lexicographic `(y, sort_order)` key order used by `Container.prepare`
(containers.py:52). -/
def keyLe (ar : Arena) (a b : Nat) : Bool :=
  (ar a).y < (ar b).y ∨ ((ar a).y = (ar b).y ∧ (ar a).sort_order ≤ (ar b).sort_order)

/-- Stable insertion used to model Python's stable `sorted`. -/
def insertSorted (ar : Arena) (x : Nat) : List Nat → List Nat
  | [] => [x]
  | y :: rest =>
    if keyLe ar y x then y :: insertSorted ar x rest else x :: y :: rest

/-- Stable sort by `(y, sort_order)`. -/
def stableSort (ar : Arena) (l : List Nat) : List Nat :=
  l.foldl (fun acc x => insertSorted ar x acc) []

/-- The predecessor-building inner loop of `Container.prepare`
(containers.py lines 54-61): for element `eid`, walk the already-sorted
prefix backwards, stop at a page break, and add each `is_predecessor`
match. -/
def addPredecessorsFor (ar : Arena) (eid : Nat) : List Nat → Arena
  | [] => ar
  | pid :: rest =>
    if (ar pid).isPageBreak then ar
    else
      let ar := if is_predecessor ar (ar eid) (ar pid) then add_predecessor ar eid pid else ar
      addPredecessorsFor ar eid rest

/-- Fold of `addPredecessorsFor` over the sorted list, threading the reversed
prefix. -/
def buildPredecessors (ar : Arena) : List Nat → List Nat → Arena
  | _, [] => ar
  | prefixRev, eid :: rest =>
    buildPredecessors (addPredecessorsFor ar eid prefixRev) (eid :: prefixRev) rest

/-- `Container.prepare` (containers.py lines 37-66) for PDF rendering: reset
the render flags when the container does not allow page breaks, drop
unprinted page breaks, sort stably by `(y, sort_order)`, rebuild the
predecessor relations and clear the per-page state. -/
def Container.prepare (c : Container) : Container :=
  let arena :=
    if ¬c.allow_page_break then
      c.doc_elements.foldl
        (fun ar eid => ar.set eid
          { ar eid with first_render_element := true, rendering_complete := false })
        c.arena
    else c.arena
  let kept := c.doc_elements.filter
    (fun eid => !(arena eid).isPageBreak || (arena eid).printed)
  let sorted := stableSort arena kept
  let arena := buildPredecessors arena [] sorted
  { c with
    arena := arena
    sorted_elements := sorted
    render_elements := []
    render_bottom := 0
    first_element_offset_y := 0 }

/-- `Container.clear_rendered_elements` (containers.py lines 68-70). -/
def Container.clear_rendered_elements (c : Container) : Container :=
  { c with render_elements := [], render_bottom := 0 }

/-- `Container.reset` (containers.py lines 211-223). -/
def Container.reset (c : Container) : Container :=
  { c with
    manual_page_break := false
    first_element_offset_y := 0
    max_bottom := 0
    render_bottom := 0
    arena := c.doc_elements.foldl
      (fun ar eid => ar.set eid
        { ar eid with first_render_element := true, rendering_complete := false })
      c.arena }

/-! ## Section element (elements.py lines 1450-1643)

`SectionBandElement.create_render_elements` wraps the band's inner container;
`SectionElement.get_next_render_element` iterates the content band per data
row.  The per-row `ctx.push_context` only changes parameter data; with the
embedded element kinds (whose print conditions and sizes are already
evaluated into the arena) it has no further effect and is not modelled. -/

/-- `BandType` (enums.py). -/
inductive BandType where
  | header | content | footer
  deriving Repr, DecidableEq

/-- `SectionBandElement` (elements.py lines 1450-1474). -/
structure SectionBand where
  id : Int
  band_type : BandType
  height : ℚ
  repeat_header : Option Bool
  always_print_on_same_page : Bool
  shrink_to_content_height : Bool
  container : Container
  rendering_complete : Bool
  prepare_container : Bool

/-- `SectionBandElement.get_render_bottom` (elements.py lines 1525-1526). -/
def SectionBand.get_render_bottom (band : SectionBand) : ℚ :=
  band.container.render_bottom

/-- `SectionBandElement.create_render_elements` (elements.py lines
1479-1523). -/
def SectionBand.create_render_elements (band : SectionBand)
    (offset_y container_top container_height : ℚ) :
    Except RBExc SectionBand := do
  let available_height := container_height - offset_y
  let band ←
    if band.always_print_on_same_page ∧ ¬band.shrink_to_content_height ∧
        available_height < band.height then
      -- not enough space for whole band
      pure { band with rendering_complete := false }
    else do
      let container :=
        if band.prepare_container then band.container.prepare
        else band.container.clear_rendered_elements
      let r := container.create_render_elements (container_top + offset_y)
        available_height
      let band := { band with container := r.1, rendering_complete := r.2 }
      if band.container.manual_page_break ∧ band.always_print_on_same_page then
        throw (.reportBroError
          { msg_key := "errorMsgSectionBandPageBreakNotAllowed",
            object_id := some band.id, field := some "alwaysPrintOnSamePage" })
      pure band
  if band.rendering_complete then
    let remaining_min_height := band.height - band.container.max_bottom
    if ¬band.shrink_to_content_height ∧ remaining_min_height > 0 then
      if remaining_min_height ≤ available_height then
        pure { band with
          prepare_container := true
          container := { band.container with
            render_bottom := band.container.render_bottom + remaining_min_height } }
      else
        pure { band with
          rendering_complete := false
          prepare_container := false
          container := { band.container with
            render_bottom := band.container.render_bottom + available_height } }
    else
      pure { band with prepare_container := true }
  else
    if band.always_print_on_same_page then
      if offset_y = 0 then
        throw (.reportBroError
          { msg_key := "errorMsgSectionBandNotOnSamePage", object_id := some band.id,
            field := some (if band.band_type = BandType.header then "size"
              else "alwaysPrintOnSamePage") })
      else
        pure { band with prepare_container := true }
    else
      pure { band with prepare_container := false }

/-- `SectionRenderElement` (rendering.py lines 459-482), reduced to the data
the section loop reads back: accumulated height and the band heights. -/
structure SectionRender where
  render_y : ℚ
  height : ℚ
  bands : List ℚ

/-- `SectionRenderElement.add_section_band` (rendering.py lines 472-482). -/
def SectionRender.add_section_band (render : SectionRender)
    (band : SectionBand) : SectionRender :=
  if band.rendering_complete ∨ ¬band.always_print_on_same_page then
    let band_height := band.get_render_bottom
    { render with
      bands := render.bands ++ [band_height]
      height := render.height + band_height }
  else render

/-- `SectionElement` render state (elements.py lines 1532-1564). -/
structure Section where
  print_header : Bool
  header : Option SectionBand
  content : SectionBand
  footer : Option SectionBand
  row_index : Nat
  row_count : Nat
  rendering_complete : Bool
  render_y : ℚ
  render_bottom : ℚ

/-- Outcome of the row loop of `SectionElement.get_next_render_element`. -/
inductive SectionLoopResult where
  | done (sec : Section) (render : SectionRender)
  | stopped (sec : Section) (render : SectionRender)

/-- The `while self.row_index < self.row_count` loop of
`SectionElement.get_next_render_element` (elements.py lines 1614-1631);
`fuel = row_count - row_index`. -/
def sectionRowsLoop (offset_y container_top container_height : ℚ) :
    Nat → Section → SectionRender → Except RBExc SectionLoopResult
  | 0, sec, render => .ok (.done sec render)
  | fuel + 1, sec, render => do
    let content ← sec.content.create_render_elements
      (offset_y + render.height) container_top container_height
    let render := render.add_section_band content
    if ¬content.rendering_complete then
      .ok (.stopped { sec with content := content } render)
    else
      let sec := { sec with content := content, row_index := sec.row_index + 1 }
      let page_break := sec.content.container.manual_page_break
      let sec := { sec with content :=
        { sec.content with container := sec.content.container.reset } }
      -- in case of a manual page break inside content band (unless already in
      -- last row) we stop rendering and start on new page
      if page_break ∧ sec.row_index < sec.row_count then
        .ok (.stopped sec render)
      else
        sectionRowsLoop offset_y container_top container_height fuel sec render

/-- `SectionElement.get_next_render_element` (elements.py lines 1601-1643).
A `print_header` flag without a header band (impossible per the constructor)
is treated as "no header". -/
def Section.get_next_render_element (sec : Section)
    (offset_y container_top container_height : ℚ) :
    Except RBExc (Section × SectionRender × Bool) := do
  let sec := { sec with render_y := offset_y, render_bottom := offset_y }
  let render : SectionRender := { render_y := offset_y, height := 0, bands := [] }
  let hdrStep : Except RBExc (Section × SectionRender × Bool) :=
    match sec.print_header, sec.header with
    | true, some hdr => do
      let hdr ← hdr.create_render_elements offset_y container_top container_height
      let render := render.add_section_band hdr
      let sec := { sec with header := some hdr }
      if ¬hdr.rendering_complete then
        pure (sec, render, false)
      else
        pure ({ sec with print_header :=
          if hdr.repeat_header ≠ some true then false else sec.print_header },
          render, true)
    | _, _ => pure (sec, render, true)
  match ← hdrStep with
  | (sec, render, false) => .ok (sec, render, false)
  | (sec, render, true) =>
    match ← sectionRowsLoop offset_y container_top container_height
        (sec.row_count - sec.row_index) sec render with
    | .stopped sec render => .ok (sec, render, false)
    | .done sec render => do
      let ftrStep : Except RBExc (Section × SectionRender × Bool) :=
        match sec.footer with
        | some ftr => do
          let ftr ← ftr.create_render_elements (offset_y + render.height)
            container_top container_height
          let render := render.add_section_band ftr
          let sec := { sec with footer := some ftr }
          if ¬ftr.rendering_complete then pure (sec, render, false)
          else pure (sec, render, true)
        | none => pure (sec, render, true)
      match ← ftrStep with
      | (sec, render, false) => .ok (sec, render, false)
      | (sec, render, true) =>
        .ok ({ sec with
          rendering_complete := true
          render_bottom := sec.render_bottom + render.height }, render, true)

/-! ## TableBandElement group-band state machine (elements.py)

`TableElement.init_group_rows` (elements.py lines 978-1013) walks the data
rows once, keeping the group expression value of the previous, current and
next row per group band (`set_next_group_expression`, lines 1150-1163) and
recording the row indices where the value changes
(`test_group_changed`, lines 1165-1178).  `TableBandElement.prepare`
(lines 1190-1209) then marks the band printed at the head of the recorded
indices, and `update_group_changed_row_indices` (lines 1180-1188) pops the
head after the row has been rendered.

Group expression values are Python objects, possibly `None`; they are
embedded as `Option V`.  The evaluation of the band's group expression in the
context of row `i` (`ctx.evaluate_expression(self.group_expression, ...)`
after `ctx.push_context(..., self.rows[i])`) is abstracted as a function
`g : Nat → Option V`; likewise the band's `print_if` expression is modelled
as `Option Bool` (`none` = no expression). -/

/-- The `TableBandElement` fields driving group detection and printing
(constructor, elements.py lines 1059-1127; all group fields start as
`False`/`None`/`[]`/`0`, `print_if_result` starts `True`). -/
structure TableBand (V : Type) where
  before_group : Bool
  /-- Truthiness of `self.group_expression` (non-empty expression string). -/
  group_expression : Bool
  print_if : Option Bool
  print_if_result : Bool
  group_changed : Bool
  group_expr_result : Option V
  prev_group_expr_result : Option V
  next_group_expr_result : Option V
  group_changed_row_indices : List Nat
  group_row_index_start : Int
  group_row_index_end : Int
  rendering_complete : Bool
  deriving Repr, DecidableEq

/-- `TableBandElement.set_next_group_expression` (elements.py lines
1150-1163); `next_val` is the evaluation of the group expression in the
pushed context of the next row, used only when `has_next`. -/
def TableBand.set_next_group_expression {V : Type} (band : TableBand V)
    (has_next : Bool) (next_val : Option V) : TableBand V :=
  { band with
    prev_group_expr_result := band.group_expr_result
    group_expr_result := band.next_group_expr_result
    next_group_expr_result := if has_next then next_val else none }

/-- `TableBandElement.test_group_changed` (elements.py lines 1165-1178). -/
def TableBand.test_group_changed {V : Type} [DecidableEq V] (band : TableBand V)
    (row_index : Nat) : TableBand V :=
  if band.group_expression then
    if band.before_group then
      if band.group_expr_result ≠ band.prev_group_expr_result then
        { band with group_changed_row_indices :=
            band.group_changed_row_indices ++ [row_index] }
      else band
    else
      if band.group_expr_result ≠ band.next_group_expr_result then
        { band with group_changed_row_indices :=
            band.group_changed_row_indices ++ [row_index] }
      else band
  else band

/-- `TableBandElement.update_group_changed_row_indices` (elements.py lines
1180-1188). -/
def TableBand.update_group_changed_row_indices {V : Type} (band : TableBand V) :
    TableBand V :=
  if band.rendering_complete ∧ band.group_changed then
    { band with group_changed_row_indices := band.group_changed_row_indices.tail }
  else band

/-- `TableBandElement.prepare` (elements.py lines 1190-1209). -/
def TableBand.prepare {V : Type} (band : TableBand V) (row_index : Nat) :
    TableBand V :=
  let band :=
    if band.group_expression then
      let band' := { band with group_changed := false }
      match band'.group_changed_row_indices with
      | head :: rest =>
        if head = row_index then
          let band'' := { band' with group_changed := true }
          if band''.before_group then
            { band'' with
              group_row_index_start := (head : Int)
              group_row_index_end :=
                match rest with
                | second :: _ => (second : Int)
                | [] => -1 }
          else
            { band'' with
              group_row_index_start := band''.group_row_index_end
              group_row_index_end := (head : Int) + 1 }
        else band'
      | [] => band'
    else band
  match band.print_if with
  | some b => { band with print_if_result := b }
  | none => band

/-- `TableBandElement.is_printed` (elements.py lines 1228-1229). -/
def TableBand.is_printed {V : Type} (band : TableBand V) : Bool :=
  band.print_if_result && (!band.group_expression || band.group_changed)

/-- The body of the `while row_index < self.row_count` loop of
`TableElement.init_group_rows` (elements.py lines 999-1013), iterated from
`row_index` with `fuel = row_count - row_index` remaining iterations. -/
def initGroupRowsAux {V : Type} [DecidableEq V] (g : Nat → Option V) (N : Nat) :
    Nat → Nat → TableBand V → TableBand V
  | _, 0, band => band
  | row_index, fuel + 1, band =>
    let has_next := decide (row_index + 1 < N)
    let band := band.set_next_group_expression has_next (g (row_index + 1))
    let band := band.test_group_changed row_index
    initGroupRowsAux g N (row_index + 1) fuel band

/-- `TableElement.init_group_rows` (elements.py lines 978-1013) restricted to
one group band (the Python loop treats each band of `content_group_rows`
independently); `N` is `row_count`.  The guard mirrors
`if self.has_table_band_group and self.row_count > 0` together with the
filter `if content_row.group_expression` building `content_group_rows`. -/
def init_group_rows {V : Type} [DecidableEq V] (g : Nat → Option V) (N : Nat)
    (band : TableBand V) : TableBand V :=
  if band.group_expression ∧ 0 < N then
    let band := { band with group_changed_row_indices := [] }
    let band := band.set_next_group_expression true (g 0)
    initGroupRowsAux g N 0 N band
  else band

/-- One row of the rendering loop of `TableElement.get_next_render_element`
(elements.py lines 915-955) for a single content band in an ideal in-page
pass: `prepare` for the row, the printed test, a completed render
(`create_render_elements` finishing, or `rendering_complete = True` directly
for an unprinted band, lines 950-951), then
`update_group_changed_row_indices`.  Returns the updated band and whether the
band was printed for this row. -/
def tableBandProcessRow {V : Type} (band : TableBand V) (row_index : Nat) :
    TableBand V × Bool :=
  let band := band.prepare row_index
  let printed := band.is_printed
  let band := { band with rendering_complete := true }
  let band := band.update_group_changed_row_indices
  (band, printed)

/-- Printed marks of the sequential pass over rows `row_index`,
`row_index + 1`, … (`fuel` rows). -/
def tableBandMarks {V : Type} (band : TableBand V) :
    Nat → Nat → List Bool
  | _, 0 => []
  | row_index, fuel + 1 =>
    let r := tableBandProcessRow band row_index
    r.2 :: tableBandMarks r.1 (row_index + 1) fuel

/-- Group value of the row preceding `i` as compared by a "before group"
band: `None` for row 0 (the initial sentinel), `g (i-1)` otherwise. -/
def groupPrevVal {V : Type} (g : Nat → Option V) : Nat → Option V
  | 0 => none
  | i + 1 => g i

/-- Group value of the row following `i` as compared by an "after group"
band: `None` for the last row, `g (i+1)` otherwise. -/
def groupNextVal {V : Type} (g : Nat → Option V) (N i : Nat) : Option V :=
  if i + 1 < N then g (i + 1) else none

/-! ## Scan-state helpers used to reason about `fillLoop` -/

/-- Last character of `pre`, or `prev` when `pre` is empty: the value of the
`prev_c` scan state after consuming `pre`. -/
def lastc (prev : Option Char) : List Char → Option Char
  | [] => prev
  | c :: rest => lastc (some c) rest

/-- `noTok prev cs` holds when scanning `cs` (with previous character `prev`)
never starts a `${...}` token. -/
def noTok : Option Char → List Char → Bool
  | _, [] => true
  | prev, c :: rest => !(decide (prev = some '$' ∧ c = '{')) && noTok (some c) rest

/-! ## Concrete inputs used by witnesses -/

/-- Environment with one array parameter `items` whose stored value is the
empty list. -/
def env9 : Env (Option (List ItemRow)) := fun name =>
  if name = ['i', 't', 'e', 'm', 's'] then
    some { parameter := mkParameter 5 ParameterType.array,
           value_exists := true, value := some (some []) }
  else none

/-- Average parameter over `items.amount` (expression text `${items.amount}`). -/
def avgParam9 : Parameter :=
  { mkParameter 7 ParameterType.average with
    expression := ['$', '{', 'i', 't', 'e', 'm', 's', '.', 'a', 'm', 'o', 'u', 'n', 't', '}'] }

/-- Empty resolution environment (every name unresolved). -/
def emptyEnv : Env Unit := fun _ => none

/-- Empty `data` dict for `replace_parameters`. -/
def emptyData : DataDict Unit := fun _ => none

/-- Formatter over unit values: `format_decimal` succeeds with marker `N`
followed by the pattern, `str(value)` is `u`. -/
def fmtUnit : Formatter Unit :=
  { format_decimal := fun _ p _ => .ok ('N' :: p),
    format_datetime := fun _ _ _ => .ok [],
    toStr := fun _ => ['u'],
    asString := fun _ => none }

/-- Locale with `en` pattern locale and `E` as currency symbol. -/
def locEn : CtxLocale :=
  { pattern_locale := ['e', 'n'], pattern_currency_symbol := ['E'] }

/-- Environment where `x` resolves but no data value exists for it. -/
def env7b : Env Unit := fun name =>
  if name = ['x'] then
    some { parameter := mkParameter 3 ParameterType.string,
           value_exists := false, value := none }
  else none

/-- Environment where `x` resolves and its value exists but is `None`. -/
def env7c : Env Unit := fun name =>
  if name = ['x'] then
    some { parameter := mkParameter 3 ParameterType.string,
           value_exists := true, value := none }
  else none

/-- Environment where `x` is a number parameter with pattern `0` and an
existing (opaque) value. -/
def env8 : Env Unit := fun name =>
  if name = ['x'] then
    some { parameter := { mkParameter 3 ParameterType.number with pattern := ['0'] },
           value_exists := true, value := some () }
  else none

/-- Freshly constructed "before group" table band (constructor state of
`TableBandElement`, elements.py lines 1059-1127). -/
def beforeBand (V : Type) : TableBand V :=
  { before_group := true, group_expression := true, print_if := none,
    print_if_result := true, group_changed := false, group_expr_result := none,
    prev_group_expr_result := none, next_group_expr_result := none,
    group_changed_row_indices := [], group_row_index_start := 0,
    group_row_index_end := 0, rendering_complete := false }

/-- Freshly constructed "after group" table band. -/
def afterBand (V : Type) : TableBand V :=
  { beforeBand V with before_group := false }

/-- Group values `1, 1, 2` for three data rows. -/
def g112 : Nat → Option Nat := fun i => some ([1, 1, 2].getD i 0)

/-- Base `DocElement` box at `(0, y)` with the given height, constructor
state. -/
def mkElem (i : Nat) (y h : ℚ) : Elem :=
  { id := i, y := y, height := h, bottom := y + h, sort_order := 1,
    isPageBreak := false, printed := true, remove_empty_element := false,
    first_render_element := true, rendering_complete := false, render_y := 0,
    render_bottom := 0, predecessors := [], successors := [] }

/-- `PageBreakElement` at the given `y` (height 0, `sort_order` 0). -/
def mkPageBreak (i : Nat) (y : ℚ) : Elem :=
  { mkElem i y 0 with bottom := y, sort_order := 0, isPageBreak := true }

/-- Arena holding a single page-break element with id 1. -/
def arenaPB : Arena := fun i => if i = 1 then mkPageBreak 1 0 else mkElem i 0 0

/-- Container with `allow_page_break = False` (header/footer band, frame or
table-cell container) holding one page-break element. -/
def containerNoBreak : Container :=
  { allow_page_break := false, doc_elements := [1], arena := arenaPB,
    sorted_elements := [1], render_elements := [], render_elements_created := false,
    manual_page_break := false, first_element_offset_y := 0, max_bottom := 0,
    render_bottom := 0 }

/-- Content-band container (page breaks allowed) holding one page-break
element. -/
def containerContentPB : Container :=
  { containerNoBreak with allow_page_break := true }

/-- Section content band wrapping `containerContentPB`
(`always_print_on_same_page` false, `shrink_to_content_height` true). -/
def bandC6 : SectionBand :=
  { id := 9, band_type := BandType.content, height := 0, repeat_header := none,
    always_print_on_same_page := false, shrink_to_content_height := true,
    container := containerContentPB, rendering_complete := false,
    prepare_container := true }

/-- Section with two data rows, no header/footer, whose content band holds a
manual page break as its only element. -/
def secC6 : Section :=
  { print_header := false, header := none, content := bandC6, footer := none,
    row_index := 0, row_count := 2, rendering_complete := false, render_y := 0,
    render_bottom := 0 }

/-- Result of running `bandC6` once (first row): the page break completes the
band with `manual_page_break` set. -/
def c6content : SectionBand :=
  match bandC6.create_render_elements (0 + 0) 0 100 with
  | .ok b => b
  | .error _ => bandC6

/-- Arena for the §8 flow scenario: element 1 at `y = 0` height 60, element 2
at `y = 70` height 60 with element 1 as predecessor. -/
def arenaFlow : Arena := fun i =>
  if i = 2 then { mkElem 2 70 60 with predecessors := [1] }
  else if i = 1 then { mkElem 1 0 60 with successors := [2] }
  else mkElem i 0 0

/-- Container for the §8 flow scenario with 90 available height. -/
def containerFlow : Container :=
  { allow_page_break := true, doc_elements := [1, 2], arena := arenaFlow,
    sorted_elements := [1, 2], render_elements := [], render_elements_created := false,
    manual_page_break := false, first_element_offset_y := 0, max_bottom := 0,
    render_bottom := 0 }

/-! ## TextElement.get_next_render_element (elements.py lines 358-437) -/

/-- `VerticalAlignment` from `reportbro/enums.py`. -/
inductive VerticalAlignment where
  | top
  | middle
  | bottom
  deriving Repr, DecidableEq

/-- `RenderElementType` from `reportbro/enums.py`. -/
inductive RenderElementType where
  | none
  | complete
  | between
  | first
  | last
  deriving Repr, DecidableEq

/-- The slice of `TextStyle` read by `TextElement.get_next_render_element`:
the paddings and the vertical alignment. -/
structure TextStyle where
  padding_top : ℚ
  padding_bottom : ℚ
  vertical_alignment : VerticalAlignment
  deriving Repr, DecidableEq

/-- The state of a `TextElement` used by `get_next_render_element`; the
wrapped `text_lines` are kept as their heights, the only field the function
reads. -/
structure TextElement where
  id : Int
  always_print_on_same_page : Bool
  first_render_element : Bool
  total_height : ℚ
  space_top : ℚ
  space_bottom : ℚ
  line_index : Nat
  text_lines : List ℚ
  used_style : TextStyle
  render_bottom : ℚ
  rendering_complete : Bool
  deriving Repr, DecidableEq

/-- `self.lines_count` is maintained as `len(self.text_lines)`. -/
def TextElement.lines_count (t : TextElement) : Nat := t.text_lines.length

/-- `TextBlockElement.__init__` fields of the produced render slice
(elements.py lines 532-544): `render_bottom = render_y + height`. -/
structure TextBlockElem where
  render_y : ℚ
  render_bottom : ℚ
  height : ℚ
  text_offset_y : ℚ
  lines : List ℚ
  render_element_type : RenderElementType
  deriving Repr, DecidableEq

/-- The `while self.line_index < self.lines_count` loop of
`TextElement.get_next_render_element` (elements.py lines 376-390): collects
the lines that fit into the remaining height and returns the final
`line_index`, remaining height, block height, text height and lines. -/
def textLineLoop (padding_top padding_bottom : ℚ) (text_lines : List ℚ)
    (lines_count : Nat) (line_index : Nat) (remaining : ℚ) (block : ℚ)
    (text_h : ℚ) (lines : List ℚ) : Nat × ℚ × ℚ × ℚ × List ℚ :=
  if line_index < lines_count then
    let line_height := text_lines.getD line_index 0
    let tmp1 := if line_index = 0 then line_height + padding_top else line_height
    let tmp_height := if lines_count - 1 ≤ line_index then tmp1 + padding_bottom else tmp1
    if tmp_height > remaining then (line_index, remaining, block, text_h, lines)
    else
      textLineLoop padding_top padding_bottom text_lines lines_count
        (line_index + 1) (remaining - tmp_height) (block + tmp_height)
        (text_h + line_height) (lines ++ [line_height])
  else (line_index, remaining, block, text_h, lines)
termination_by lines_count - line_index
decreasing_by omega

/-- `TextElement.get_next_render_element` (elements.py lines 358-437):
returns the optional render slice, the updated element and the completion
flag, or the raised `ReportBroError`. -/
def TextElement.get_next_render_element (t : TextElement)
    (offset_y container_top container_height : ℚ) :
    Except RBExc (Option TextBlockElem × TextElement × Bool) :=
  let available_height := container_height - offset_y
  if t.always_print_on_same_page = true ∧ t.first_render_element = true ∧
      t.total_height > available_height ∧ (offset_y ≠ 0 ∨ container_top ≠ 0) then
    .ok (none, t, false)
  else
    let st0 :=
      if t.space_top > 0 then
        let space_top := min t.space_top available_height
        ({ t with space_top := t.space_top - space_top },
          available_height - space_top, space_top, space_top)
      else (t, available_height, (0 : ℚ), (0 : ℚ))
    let t1 := st0.1
    let remaining1 := st0.2.1
    let block1 := st0.2.2.1
    let text_offset_y := st0.2.2.2
    let st1 :=
      if t1.space_top = 0 then
        let r := textLineLoop t1.used_style.padding_top t1.used_style.padding_bottom
          t1.text_lines t1.lines_count t1.line_index remaining1 block1 0 []
        ({ t1 with line_index := r.1 }, r.2.1, r.2.2.1, r.2.2.2.1, r.2.2.2.2)
      else (t1, remaining1, block1, (0 : ℚ), ([] : List ℚ))
    let t2 := st1.1
    let remaining2 := st1.2.1
    let block2 := st1.2.2.1
    let text_height := st1.2.2.2.1
    let lines := st1.2.2.2.2
    let st2 :=
      if t2.lines_count ≤ t2.line_index ∧ t2.space_bottom > 0 then
        let space_bottom := min t2.space_bottom remaining2
        ({ t2 with space_bottom := t2.space_bottom - space_bottom },
          remaining2 - space_bottom, block2 + space_bottom)
      else (t2, remaining2, block2)
    let t3 := st2.1
    let remaining3 := st2.2.1
    let block3 := st2.2.2
    if t3.space_top = 0 ∧ t3.line_index = 0 ∧ 0 < t3.lines_count then
      if offset_y ≠ 0 ∨ container_top ≠ 0 then
        .ok (none, t3, false)
      else
        .error (.reportBroError
          { msg_key := "errorMsgInvalidSize", object_id := some t.id,
            field := some "height" })
    else
      let rendering_complete :=
        decide (t3.lines_count ≤ t3.line_index) && decide (t3.space_top = 0) &&
          decide (t3.space_bottom = 0)
      let block4 :=
        if rendering_complete = false ∧ remaining3 > 0 then block3 + remaining3
        else block3
      let render_element_type :=
        if t3.first_render_element = true ∧ rendering_complete = true then
          RenderElementType.complete
        else if t3.first_render_element = true then RenderElementType.first
        else if rendering_complete = true then RenderElementType.last
        else RenderElementType.between
      let text_offset_y2 :=
        if t3.first_render_element = false ∧ rendering_complete = true ∧
            t3.used_style.vertical_alignment = VerticalAlignment.bottom then
          let tmp := block4 - t3.used_style.padding_bottom - text_height
          if tmp > 0 then tmp else text_offset_y
        else text_offset_y
      let text_block_elem : TextBlockElem :=
        { render_y := offset_y, render_bottom := offset_y + block4,
          height := block4, text_offset_y := text_offset_y2, lines := lines,
          render_element_type := render_element_type }
      let t4 := { t3 with
        first_render_element := false
        render_bottom := text_block_elem.render_bottom
        rendering_complete := rendering_complete }
      .ok (some text_block_elem, t4, rendering_complete)

/-! ## DocumentPDFRenderer.render page loop (reportbro.py lines 72-89) -/

/-- `BandDisplay` from `reportbro/enums.py`. -/
inductive BandDisplay where
  | never
  | always
  | not_on_first_page
  deriving Repr, DecidableEq

/-- The document properties read by the page loop. -/
structure DocumentProperties where
  page_height : ℚ
  margin_top : ℚ
  margin_bottom : ℚ
  header_size : ℚ
  footer_size : ℚ
  header_display : BandDisplay
  footer_display : BandDisplay
  deriving Repr, DecidableEq

/-- The per-page content height computation (reportbro.py lines 74-81). -/
def pageContentHeight (dp : DocumentProperties) (page_count : Nat) : ℚ :=
  let h := dp.page_height - dp.margin_top - dp.margin_bottom
  let h := if dp.header_display = BandDisplay.always ∨
      (dp.header_display = BandDisplay.not_on_first_page ∧ page_count ≠ 1) then
    h - dp.header_size else h
  if dp.footer_display = BandDisplay.always ∨
      (dp.footer_display = BandDisplay.not_on_first_page ∧ page_count ≠ 1) then
    h - dp.footer_size else h

/-- Python truthiness of `self.page_limit`: `None` and `0` are falsy. -/
def pageLimitTruthy : Option Nat → Bool
  | Option.none => false
  | Option.some n => decide (n ≠ 0)

/-- Outcome of the `while True` pagination loop: normal break on completion,
the raised exception, or fuel exhaustion standing for an unbounded loop. -/
inductive RenderLoopResult where
  | completed (page_count : Nat) (c : Container)
  | fail (e : RBExc)
  | outOfFuel (page_count : Nat) (c : Container)

/-- The `while True` page loop of `DocumentPDFRenderer.render`
(reportbro.py lines 73-89) with explicit fuel: each iteration recomputes the
available height, asks the content container for the next page of render
elements and stops on completion; otherwise the page count is incremented
and checked against `page_limit`. -/
def renderPagesLoop (dp : DocumentProperties) (page_limit : Option Nat) :
    Nat → Nat → Container → RenderLoopResult
  | 0, page_count, c => .outOfFuel page_count c
  | fuel + 1, page_count, c =>
    let height := pageContentHeight dp page_count
    let r := c.create_render_elements 0 height
    if r.2 = true then .completed page_count r.1
    else
      let page_count2 := page_count + 1
      if pageLimitTruthy page_limit = true ∧ page_count2 > page_limit.getD 0 then
        .fail (.reportBroInternalError "Too many pages (probably an endless loop)")
      else renderPagesLoop dp page_limit fuel page_count2 r.1

/-- Text element for the deferral scenario: must stay on one page, 50 units
tall, asked to render at offset 60 of a 100 unit container. -/
def tC5a : TextElement :=
  { id := 5, always_print_on_same_page := true, first_render_element := true,
    total_height := 50, space_top := 0, space_bottom := 0, line_index := 0,
    text_lines := [50],
    used_style := { padding_top := 0, padding_bottom := 0,
                    vertical_alignment := VerticalAlignment.top },
    render_bottom := 0, rendering_complete := false }

/-- Text element for the raise scenario: a single 30 unit line in a 20 unit
container at the very top of an empty page. -/
def tC5b : TextElement :=
  { id := 7, always_print_on_same_page := true, first_render_element := true,
    total_height := 30, space_top := 0, space_bottom := 0, line_index := 0,
    text_lines := [30],
    used_style := { padding_top := 0, padding_bottom := 0,
                    vertical_alignment := VerticalAlignment.top },
    render_bottom := 0, rendering_complete := false }

/-- Arena with a single 200 unit tall element, which never fits a 100 unit
page. -/
def arenaC4 : Arena := fun i =>
  if i = 1 then mkElem 1 0 200 else mkElem i 0 0

/-- Content container whose only element never fits. -/
def containerC4 : Container :=
  { allow_page_break := true, doc_elements := [1], arena := arenaC4,
    sorted_elements := [1], render_elements := [], render_elements_created := false,
    manual_page_break := false, first_element_offset_y := 0, max_bottom := 0,
    render_bottom := 0 }

/-- 100 unit page with no margins, headers or footers. -/
def dpC4 : DocumentProperties :=
  { page_height := 100, margin_top := 0, margin_bottom := 0, header_size := 0,
    footer_size := 0, header_display := BandDisplay.never,
    footer_display := BandDisplay.never }

end ReportBro

namespace ReportBro

/-! # Theorems -/

/-- Auxiliary: `splitAtDot` splits exactly at the first dot. -/
theorem splitAtDot_eq {name field : List Char} (hname : '.' ∉ name) :
    evaluate_parameter_func.splitAtDot (name ++ '.' :: field) = some (name, field) := by
  induction name with
  | nil => simp [evaluate_parameter_func.splitAtDot]
  | cons c cs ih =>
    simp only [List.mem_cons, not_or] at hname
    have hc : ¬c = '.' := fun h => hname.1 h.symm
    simp only [List.cons_append, evaluate_parameter_func.splitAtDot, if_neg hc,
      List.append_eq, ih hname.2]

/-- **C9**: `Context.evaluate_parameter_func`, for a parameter of type
`average` whose referenced array parameter resolves to an existing list value
that is empty after applying the array parameter's active row range
(`param_ref.parameter.get_range()`, context.py:305), performs `total /
len(items)` with `len(items) == 0` and therefore raises a raw
`ZeroDivisionError`, which is neither a `ReportBroError` nor a
`ReportBroInternalError`. -/
theorem c9_average_empty_zero_division (env : Env (Option (List ItemRow)))
    (p : Parameter) (entry : ParamEntry (Option (List ItemRow)))
    (pname pfield : List Char) (items : List ItemRow)
    (hty : p.ptype = ParameterType.average)
    (hsplit : evaluate_parameter_func.splitAtDot (strip_parameter_name p.expression) =
      some (pname, pfield))
    (henv : env pname = some entry)
    (harr : entry.parameter.ptype = ParameterType.array)
    (hex : entry.value_exists = true)
    (hval : entry.value = some (some items))
    (hempty : (match entry.parameter.get_range with
      | some (start, end_) => pySlice items start (if end_ = -1 then (items.length : Int) else end_)
      | none => items) = []) :
    evaluate_parameter_func env p = .error RBExc.zeroDivisionError ∧
    (∀ e, RBExc.zeroDivisionError ≠ RBExc.reportBroError e) ∧
    (∀ m, RBExc.zeroDivisionError ≠ RBExc.reportBroInternalError m) := by
  refine ⟨?_, fun e => by simp, fun m => by simp⟩
  unfold evaluate_parameter_func
  simp only [hsplit, henv, harr, hty, get_parameter_data, hex, if_true, hval]
  cases hr : entry.parameter.get_range with
  | none =>
    simp only [hr] at hempty
    simp only [hr, hempty, sumItems, hty, if_true]
    rfl
  | some se =>
    obtain ⟨start, end_⟩ := se
    simp only [hr] at hempty
    simp only [hr, hempty, sumItems, hty, if_true]
    rfl

/-- Witness for C9 at a concrete empty `items` list. -/
theorem c9_average_empty_zero_division_witness :
    evaluate_parameter_func env9 avgParam9 = .error RBExc.zeroDivisionError :=
  (c9_average_empty_zero_division env9 avgParam9
    { parameter := mkParameter 5 ParameterType.array,
      value_exists := true, value := some (some []) }
    ['i', 't', 'e', 'm', 's'] ['a', 'm', 'o', 'u', 'n', 't'] []
    rfl (by rfl) (by rfl) rfl rfl rfl rfl).1

/-- Auxiliary: `splitAtBrace` splits exactly at the first closing brace. -/
theorem splitAtBrace_eq (name rest : List Char) (hname : '}' ∉ name) :
    splitAtBrace (name ++ '}' :: rest) = some (name, rest) := by
  induction name with
  | nil => simp [splitAtBrace]
  | cons c cs ih =>
    simp only [List.mem_cons, not_or] at hname
    have hc : ¬c = '}' := fun h => hname.1 h.symm
    simp only [List.cons_append, splitAtBrace, if_neg hc, List.append_eq, ih hname.2]

/-- **C10**: `Context.replace_parameters` never fails on an unresolvable
parameter reference: a `${name}` token whose name `get_parameter` cannot
resolve is rewritten to the sanitized identifier (`.` and `:` replaced by
`_`) and that identifier is bound to `None` in the `data` dict passed to the
continuation of the scan, instead of raising the unresolved-name user error
(the function is total and has no error channel at all). -/
theorem c10_replace_parameters_unresolved_binds_none {V : Type} (env : Env V)
    (name rest : List Char) (data : DataDict V)
    (hname : '}' ∉ name) (henv : env name = none) :
    (replace_parameters env ('$' :: '{' :: name ++ '}' :: rest) data).1 =
      sanitizeName name ++
        (replace_parameters env rest (data.insert (sanitizeName name) none)).1 ∧
    (replace_parameters env ('$' :: '{' :: name ++ '}' :: rest) data).2 =
      (replace_parameters env rest (data.insert (sanitizeName name) none)).2 := by
  have hsb := splitAtBrace_eq name rest hname
  rw [replace_parameters.eq_def]
  simp only [List.cons_append]
  refine ⟨?_, ?_⟩ <;>
  · split
    next name1 after heq =>
      have hne : name = name1 ∧ rest = after := by
        have h2 := hsb.symm.trans heq
        simpa using h2
      obtain ⟨rfl, rfl⟩ := hne
      simp [henv]
    next heq =>
      rw [hsb] at heq
      cases heq

/-- Witness for C10: the token `${a.b}` with an empty environment rewrites to
identifier `a_b` bound to `None`. -/
theorem c10_replace_parameters_unresolved_binds_none_witness :
    (replace_parameters emptyEnv
        ('$' :: '{' :: ['a', '.', 'b'] ++ '}' :: [' ', '+', ' ', '1']) emptyData).1 =
      sanitizeName ['a', '.', 'b'] ++
        (replace_parameters emptyEnv [' ', '+', ' ', '1']
          (emptyData.insert (sanitizeName ['a', '.', 'b']) none)).1 :=
  (c10_replace_parameters_unresolved_binds_none emptyEnv ['a', '.', 'b']
    [' ', '+', ' ', '1'] emptyData (by decide) rfl).1

/-- Auxiliary: text of the shape `pre ++ "${" ++ l` passes the
`expr.find('${') == -1` guard. -/
theorem hasDollarBrace_append (pre l : List Char) :
    hasDollarBrace (pre ++ '$' :: '{' :: l) = true := by
  induction pre with
  | nil => rfl
  | cons c cs ih =>
    rw [List.cons_append, hasDollarBrace.eq_def]
    split
    · rfl
    next rest heq =>
      injection heq with h1 h2
      rw [h2] at ih
      exact ih
    next heq => cases heq

/-- Auxiliary: scanning characters that start no token just copies them to
`rv` and updates `prev_c`. -/
theorem fillLoop_copy {V : Type} (env : Env V) (fmt : Formatter V) (loc : CtxLocale)
    (object_id : Int) (field : String) (pattern : Option (List Char))
    (parameter_type : Option ParameterType) (ignore_pattern : Bool)
    (pre : List Char) :
    ∀ (prev : Option Char) (rest rv : List Char), noTok prev pre = true →
      fillLoop env fmt loc object_id field pattern parameter_type ignore_pattern
          (pre ++ rest) prev none rv =
        fillLoop env fmt loc object_id field pattern parameter_type ignore_pattern
          rest (lastc prev pre) none (rv ++ pre) := by
  induction pre with
  | nil => intro prev rest rv _; simp [lastc]
  | cons c cs ih =>
    intro prev rest rv hnt
    simp only [noTok, Bool.and_eq_true, Bool.not_eq_true', decide_eq_false_iff_not] at hnt
    rw [List.cons_append, fillLoop, if_neg hnt.1, ih (some c) rest (rv ++ [c]) hnt.2]
    simp [lastc, List.append_assoc]

/-- Auxiliary: scanning the token name accumulates its characters into the
name accumulator without touching `rv`. -/
theorem fillLoop_name {V : Type} (env : Env V) (fmt : Formatter V) (loc : CtxLocale)
    (object_id : Int) (field : String) (pattern : Option (List Char))
    (parameter_type : Option ParameterType) (ignore_pattern : Bool)
    (name : List Char) :
    ∀ (prev : Option Char) (acc post rv : List Char), '}' ∉ name →
      fillLoop env fmt loc object_id field pattern parameter_type ignore_pattern
          (name ++ '}' :: post) prev (some acc) rv =
        fillLoop env fmt loc object_id field pattern parameter_type ignore_pattern
          ('}' :: post) (lastc prev name) (some (acc ++ name)) rv := by
  induction name with
  | nil => intro prev acc post rv _; simp [lastc]
  | cons c cs ih =>
    intro prev acc post rv hname
    simp only [List.mem_cons, not_or] at hname
    have hc : ¬c = '}' := fun h => hname.1 h.symm
    rw [List.cons_append, fillLoop, if_neg hc, ih (some c) (acc ++ [c]) post rv hname.2]
    simp [lastc, List.append_assoc]

/-- **C7**: `Context.fill_parameters` on a text containing a `${name}` token
(a) raises the user-facing `errorMsgInvalidExpressionNameNotDefined`
`ReportBroError` when the name cannot be resolved, (b) raises the user-facing
`errorMsgMissingParameterData` `ReportBroError` when the name resolves but no
data value exists for the parameter, and (c) does not raise when a value
exists but is `None`: the token is replaced by the empty string. -/
theorem c7_fill_parameters_error_semantics {V : Type} (env : Env V)
    (fmt : Formatter V) (loc : CtxLocale) (pre name post : List Char)
    (object_id : Int) (field : String)
    (hpre : noTok none pre = true) (hname : '}' ∉ name) :
    (env name = none →
      fill_parameters env fmt loc (pre ++ '$' :: '{' :: (name ++ '}' :: post))
          object_id field none none false =
        .error (.reportBroError
          { msg_key := "errorMsgInvalidExpressionNameNotDefined",
            object_id := some object_id, field := some field,
            info := some (String.mk name) })) ∧
    (∀ entry : ParamEntry V, env name = some entry → entry.value_exists = false →
      fill_parameters env fmt loc (pre ++ '$' :: '{' :: (name ++ '}' :: post))
          object_id field none none false =
        .error (.reportBroError
          { msg_key := "errorMsgMissingParameterData",
            object_id := some object_id, field := some field,
            info := some (String.mk name) })) ∧
    (∀ entry : ParamEntry V, env name = some entry → entry.value_exists = true →
      entry.value = none → noTok (some '}') post = true →
      fill_parameters env fmt loc (pre ++ '$' :: '{' :: (name ++ '}' :: post))
          object_id field none none false = .ok (pre ++ post)) := by
  have hstart :
      fill_parameters env fmt loc (pre ++ '$' :: '{' :: (name ++ '}' :: post))
          object_id field none none false =
        fillLoop env fmt loc object_id field none none false
          ('}' :: post) (lastc (some '{') name) (some name) pre := by
    rw [fill_parameters, if_neg (by simp [hasDollarBrace_append])]
    rw [fillLoop_copy env fmt loc object_id field none none false pre none
      ('$' :: '{' :: (name ++ '}' :: post)) [] hpre]
    rw [fillLoop, if_neg (by simp)]
    rw [fillLoop, if_pos ⟨rfl, rfl⟩]
    rw [show ((([] : List Char) ++ pre) ++ ['$']).dropLast = pre by simp]
    rw [fillLoop_name env fmt loc object_id field none none false name
      (some '{') [] post pre hname]
    rw [List.nil_append]
  refine ⟨?_, ?_, ?_⟩
  · intro henv
    rw [hstart, fillLoop, if_pos rfl, henv]
  · intro entry henv hex
    rw [hstart, fillLoop, if_pos rfl, henv]
    simp [get_parameter_data, hex]
  · intro entry henv hex hval hpost
    rw [hstart, fillLoop, if_pos rfl, henv]
    have hcopy := fillLoop_copy env fmt loc object_id field none none false post
      (some '}') [] pre hpost
    rw [List.append_nil] at hcopy
    simp [get_parameter_data, hex, hval, hcopy]
    rw [fillLoop]

/-- Witness for C7: the text `a ${x} b` with (a) `x` unresolved, (b) `x`
resolved without data, (c) `x` resolved with a `None` value. -/
theorem c7_fill_parameters_error_semantics_witness :
    (fill_parameters emptyEnv fmtUnit locEn
        (['a', ' '] ++ '$' :: '{' :: (['x'] ++ '}' :: [' ', 'b'])) 1 "content"
        none none false =
      .error (.reportBroError
        { msg_key := "errorMsgInvalidExpressionNameNotDefined",
          object_id := some 1, field := some "content",
          info := some (String.mk ['x']) })) ∧
    (fill_parameters env7b fmtUnit locEn
        (['a', ' '] ++ '$' :: '{' :: (['x'] ++ '}' :: [' ', 'b'])) 1 "content"
        none none false =
      .error (.reportBroError
        { msg_key := "errorMsgMissingParameterData",
          object_id := some 1, field := some "content",
          info := some (String.mk ['x']) })) ∧
    (fill_parameters env7c fmtUnit locEn
        (['a', ' '] ++ '$' :: '{' :: (['x'] ++ '}' :: [' ', 'b'])) 1 "content"
        none none false = .ok (['a', ' '] ++ [' ', 'b'])) :=
  ⟨(c7_fill_parameters_error_semantics emptyEnv fmtUnit locEn ['a', ' '] ['x']
      [' ', 'b'] 1 "content" (by decide) (by decide)).1 rfl,
   (c7_fill_parameters_error_semantics env7b fmtUnit locEn ['a', ' '] ['x']
      [' ', 'b'] 1 "content" (by decide) (by decide)).2.1 _ rfl rfl,
   (c7_fill_parameters_error_semantics env7c fmtUnit locEn ['a', ' '] ['x']
      [' ', 'b'] 1 "content" (by decide) (by decide)).2.2 _ rfl rfl rfl (by decide)⟩

/-- **C8**: round-trip formatting — `fill_parameters` applied to the text
`${x}`, with `x` bound to a number value and a non-empty format pattern,
returns exactly the string produced by formatting that value with that
pattern and the report's pattern locale (`format_decimal` plus the `$` →
currency-symbol replacement when the pattern holds a currency sign), with
nothing prepended or appended. -/
theorem c8_round_trip_formatting {V : Type} (env : Env V) (fmt : Formatter V)
    (loc : CtxLocale) (entry : ParamEntry V) (v : V) (s : List Char)
    (object_id : Int) (field : String)
    (henv : env ['x'] = some entry)
    (hty : entry.parameter.ptype = ParameterType.number)
    (hex : entry.value_exists = true)
    (hv : entry.value = some v)
    (hpat : entry.parameter.pattern ≠ [])
    (hfmt : fmt.format_decimal v entry.parameter.pattern loc.pattern_locale = .ok s) :
    fill_parameters env fmt loc ['$', '{', 'x', '}'] object_id field none none false =
      .ok (if entry.parameter.pattern_has_currency then
        replaceCurrency s loc.pattern_currency_symbol else s) := by
  rw [fill_parameters, if_neg (by decide)]
  rw [fillLoop, if_neg (by simp)]
  rw [fillLoop, if_pos ⟨rfl, rfl⟩]
  rw [fillLoop, if_neg (by decide)]
  rw [fillLoop, if_pos rfl]
  simp only [List.nil_append]
  rw [henv]
  have hfv : get_formatted_value fmt loc v entry.parameter object_id none false =
      .ok (if entry.parameter.pattern_has_currency then
        replaceCurrency s loc.pattern_currency_symbol else s) := by
    rw [get_formatted_value]
    simp [hty, hpat, hfmt]
  simp [get_parameter_data, hex, hv, hty, hfv, fillLoop]
  rfl

/-- Auxiliary: `test_group_changed` modifies only
`group_changed_row_indices`. -/
theorem test_group_changed_eq {V : Type} [DecidableEq V] (band : TableBand V)
    (i : Nat) :
    band.test_group_changed i =
      { band with group_changed_row_indices :=
          (band.test_group_changed i).group_changed_row_indices } := by
  unfold TableBand.test_group_changed
  split
  · split
    · split <;> rfl
    · split <;> rfl
  · rfl

/-- Auxiliary: `initGroupRowsAux` preserves the band fields that are not part
of the group-detection state. -/
theorem initGroupRowsAux_preserves {V : Type} [DecidableEq V]
    (g : Nat → Option V) (N : Nat) :
    ∀ (fuel i : Nat) (band : TableBand V),
      (initGroupRowsAux g N i fuel band).before_group = band.before_group ∧
      (initGroupRowsAux g N i fuel band).group_expression = band.group_expression ∧
      (initGroupRowsAux g N i fuel band).print_if = band.print_if ∧
      (initGroupRowsAux g N i fuel band).print_if_result = band.print_if_result := by
  intro fuel
  induction fuel with
  | zero => intro i band; exact ⟨rfl, rfl, rfl, rfl⟩
  | succ fuel ih =>
    intro i band
    rw [initGroupRowsAux]
    obtain ⟨h1, h2, h3, h4⟩ :=
      ih (i + 1) ((band.set_next_group_expression (decide (i + 1 < N))
        (g (i + 1))).test_group_changed i)
    refine ⟨h1.trans ?_, h2.trans ?_, h3.trans ?_, h4.trans ?_⟩ <;>
      rw [test_group_changed_eq] <;> rfl

/-- Auxiliary: the recorded indices after one `test_group_changed` call. -/
theorem test_group_changed_indices {V : Type} [DecidableEq V]
    (band : TableBand V) (i : Nat) (hge : band.group_expression = true) :
    (band.test_group_changed i).group_changed_row_indices =
      band.group_changed_row_indices ++
        (if (if band.before_group = true
             then band.group_expr_result ≠ band.prev_group_expr_result
             else band.group_expr_result ≠ band.next_group_expr_result)
         then [i] else []) := by
  unfold TableBand.test_group_changed
  rw [if_pos hge]
  by_cases hb : band.before_group = true
  · rw [if_pos hb]
    by_cases hch : band.group_expr_result ≠ band.prev_group_expr_result <;>
      simp [hb, hch]
  · rw [if_neg hb]
    by_cases hch : band.group_expr_result ≠ band.next_group_expr_result <;>
      simp [hb, hch]

/-- Auxiliary: the loop of `init_group_rows` records exactly the rows of
`range' i fuel` where the group value differs from the compared neighbour. -/
theorem initGroupRowsAux_indices {V : Type} [DecidableEq V]
    (g : Nat → Option V) (N : Nat) :
    ∀ (fuel i : Nat) (band : TableBand V), i + fuel = N →
      band.group_expression = true →
      (0 < fuel → band.next_group_expr_result = g i) →
      (0 < fuel → band.group_expr_result = groupPrevVal g i) →
      (initGroupRowsAux g N i fuel band).group_changed_row_indices =
        band.group_changed_row_indices ++
          (List.range' i fuel).filter
            (fun j => if band.before_group then decide (g j ≠ groupPrevVal g j)
                      else decide (g j ≠ groupNextVal g N j)) := by
  intro fuel
  induction fuel with
  | zero => intro i band _ _ _ _; simp [initGroupRowsAux]
  | succ fuel ih =>
    intro i band hiN hge hnext hcur
    rw [initGroupRowsAux]
    have hnext1 := hnext (Nat.succ_pos fuel)
    have hcur1 := hcur (Nat.succ_pos fuel)
    set band1 := band.set_next_group_expression (decide (i + 1 < N)) (g (i + 1))
      with hband1
    have h1cur : band1.group_expr_result = g i := by
      simp [hband1, TableBand.set_next_group_expression, hnext1]
    have h1prev : band1.prev_group_expr_result = groupPrevVal g i := by
      simp [hband1, TableBand.set_next_group_expression, hcur1]
    have h1next : band1.next_group_expr_result = groupNextVal g N i := by
      simp only [hband1, TableBand.set_next_group_expression, groupNextVal]
      by_cases hlt : i + 1 < N
      · simp [hlt]
      · simp [hlt]
    have h1before : band1.before_group = band.before_group := rfl
    have h1ge : band1.group_expression = band.group_expression := rfl
    have h1idx : band1.group_changed_row_indices =
        band.group_changed_row_indices := rfl
    set band2 := band1.test_group_changed i with hband2
    have h2idx : band2.group_changed_row_indices =
        band.group_changed_row_indices ++
          (if (if band.before_group = true
               then g i ≠ groupPrevVal g i
               else g i ≠ groupNextVal g N i)
           then [i] else []) := by
      rw [hband2, test_group_changed_indices band1 i (h1ge.trans hge),
        h1before, h1cur, h1prev, h1next, h1idx]
    rw [ih (i + 1) band2 (by omega)
      (by rw [hband2, test_group_changed_eq]; exact h1ge.trans hge)
      (fun hf => by
        rw [hband2, test_group_changed_eq]
        show band1.next_group_expr_result = g (i + 1)
        rw [h1next, groupNextVal, if_pos (by omega)])
      (fun hf => by
        rw [hband2, test_group_changed_eq]
        show band1.group_expr_result = groupPrevVal g (i + 1)
        rw [h1cur]; rfl)]
    have h2before : band2.before_group = band.before_group := by
      rw [hband2, test_group_changed_eq]; exact h1before
    rw [h2idx, h2before, List.range'_succ, List.filter_cons, List.append_assoc]
    by_cases hb : band.before_group = true
    · by_cases hch : g i ≠ groupPrevVal g i
      · simp [hb, hch]
      · simp [hb, hch]
    · by_cases hch : g i ≠ groupNextVal g N i
      · simp [hb, hch]
      · simp [hb, hch]

/-- Auxiliary: `prepare` modifies only `group_changed` and the group row
range when the band has no `print_if` expression. -/
theorem prepare_eq {V : Type} (band : TableBand V) (i : Nat)
    (hpif : band.print_if = none) :
    band.prepare i =
      { band with
        group_changed := (band.prepare i).group_changed
        group_row_index_start := (band.prepare i).group_row_index_start
        group_row_index_end := (band.prepare i).group_row_index_end } := by
  unfold TableBand.prepare
  by_cases hge : band.group_expression = true
  · rw [if_pos hge]
    cases hidx : band.group_changed_row_indices with
    | nil => simp [hpif]
    | cons head rest =>
      by_cases hh : head = i
      · by_cases hb : band.before_group = true
        · cases rest <;> simp [hh, hb, hpif]
        · cases rest <;> simp [hh, hb, hpif]
      · simp [hh, hpif]
  · rw [if_neg hge]
    simp only [hpif]
    rw [← hpif]

/-- Auxiliary: the `group_changed` flag set by `prepare` is exactly "the head
of the recorded indices is this row". -/
theorem prepare_group_changed {V : Type} (band : TableBand V) (i : Nat)
    (hge : band.group_expression = true) (hpif : band.print_if = none) :
    (band.prepare i).group_changed =
      decide (band.group_changed_row_indices.head? = some i) := by
  unfold TableBand.prepare
  rw [if_pos hge]
  cases hidx : band.group_changed_row_indices with
  | nil => simp [hpif]
  | cons head rest =>
    by_cases hh : head = i
    · by_cases hb : band.before_group = true
      · cases rest <;> simp [hh, hb, hpif]
      · cases rest <;> simp [hh, hb, hpif]
    · simp [hh, hpif]

/-- Auxiliary: the sequential pass over rows `i, i+1, …` prints the group
band exactly at the recorded indices, provided those are strictly increasing
and not below `i`. -/
theorem tableBandMarks_spec {V : Type} :
    ∀ (fuel i : Nat) (band : TableBand V),
      band.group_expression = true →
      band.print_if = none →
      band.print_if_result = true →
      band.group_changed_row_indices.Pairwise (· < ·) →
      (∀ j ∈ band.group_changed_row_indices, i ≤ j) →
      tableBandMarks band i fuel =
        (List.range' i fuel).map
          (fun j => decide (j ∈ band.group_changed_row_indices)) := by
  intro fuel
  induction fuel with
  | zero => intro i band _ _ _ _ _; simp [tableBandMarks]
  | succ fuel ih =>
    intro i band hge hpif hpir hpw hbound
    rw [tableBandMarks]
    set bandP := band.prepare i with hbandP
    have hPeq := prepare_eq band i hpif
    rw [← hbandP] at hPeq
    have hPchanged := prepare_group_changed band i hge hpif
    rw [← hbandP] at hPchanged
    have hPidx : bandP.group_changed_row_indices =
        band.group_changed_row_indices := by rw [hPeq]
    have hPge : bandP.group_expression = true := by rw [hPeq]; exact hge
    have hPpif : bandP.print_if = none := by rw [hPeq]; exact hpif
    have hPpir : bandP.print_if_result = true := by rw [hPeq]; exact hpir
    have hprinted : (tableBandProcessRow band i).2 =
        decide (band.group_changed_row_indices.head? = some i) := by
      rw [tableBandProcessRow]
      show bandP.is_printed = _
      rw [TableBand.is_printed, hPpir, hPge, hPchanged]
      simp
    have hband2 : (tableBandProcessRow band i).1 =
        ({ bandP with rendering_complete := true } :
          TableBand V).update_group_changed_row_indices := by
      rw [tableBandProcessRow]
    cases hhead : band.group_changed_row_indices.head? with
    | none =>
      have hnil : band.group_changed_row_indices = [] :=
        List.head?_eq_none_iff.mp hhead
      have hnopop : (tableBandProcessRow band i).1.group_changed_row_indices = [] ∧
          (tableBandProcessRow band i).1.group_expression = true ∧
          (tableBandProcessRow band i).1.print_if = none ∧
          (tableBandProcessRow band i).1.print_if_result = true := by
        rw [hband2, TableBand.update_group_changed_row_indices]
        split <;> simp [hPidx, hnil, hPge, hPpif, hPpir]
      rw [hprinted, hhead]
      rw [ih (i + 1) _ hnopop.2.1 hnopop.2.2.1 hnopop.2.2.2
        (by rw [hnopop.1]; exact List.Pairwise.nil)
        (by rw [hnopop.1]; intro j hj; cases hj)]
      rw [hnopop.1, hnil, List.range'_succ]
      simp
    | some head =>
      obtain ⟨rest, hidx⟩ : ∃ rest, band.group_changed_row_indices = head :: rest := by
        cases hi : band.group_changed_row_indices with
        | nil => rw [hi] at hhead; cases hhead
        | cons a b =>
          rw [hi] at hhead
          injection hhead with hh
          exact ⟨b, by rw [hh]⟩
      have hpw' := hpw
      rw [hidx, List.pairwise_cons] at hpw'
      by_cases hh : head = i
      · -- the head is popped, the band is printed
        have hpop : (tableBandProcessRow band i).1.group_changed_row_indices = rest ∧
            (tableBandProcessRow band i).1.group_expression = true ∧
            (tableBandProcessRow band i).1.print_if = none ∧
            (tableBandProcessRow band i).1.print_if_result = true := by
          rw [hband2, TableBand.update_group_changed_row_indices]
          have : ({ bandP with rendering_complete := true } :
              TableBand V).group_changed = true := by
            show bandP.group_changed = true
            rw [hPchanged, hhead, hh]
            simp
          rw [if_pos ⟨rfl, this⟩]
          simp [hPidx, hidx, hPge, hPpif, hPpir]
        rw [hprinted, hhead, hh]
        rw [ih (i + 1) _ hpop.2.1 hpop.2.2.1 hpop.2.2.2
          (by rw [hpop.1]; exact hpw'.2)
          (by rw [hpop.1]; intro j hj; have := hpw'.1 j hj; omega)]
        rw [hpop.1, hidx, List.range'_succ]
        simp only [List.map_cons, List.mem_cons, hh]
        refine congrArg₂ _ (by simp) (List.map_congr_left ?_)
        intro j hj
        have hj1 : i + 1 ≤ j := (List.mem_range'_1.mp hj).1
        simp only [decide_eq_decide]
        constructor
        · exact fun hjr => Or.inr hjr
        · intro hor
          rcases hor with hji | hjr
          · exact absurd hji (by omega)
          · exact hjr
      · -- the head is a later row: nothing printed, nothing popped
        have hlt : i < head := by
          have := hbound head (by rw [hidx]; exact List.mem_cons_self _ _)
          omega
        have hnopop : (tableBandProcessRow band i).1.group_changed_row_indices =
              head :: rest ∧
            (tableBandProcessRow band i).1.group_expression = true ∧
            (tableBandProcessRow band i).1.print_if = none ∧
            (tableBandProcessRow band i).1.print_if_result = true := by
          rw [hband2, TableBand.update_group_changed_row_indices]
          have : ({ bandP with rendering_complete := true } :
              TableBand V).group_changed = false := by
            show bandP.group_changed = false
            rw [hPchanged, hhead]
            simp [hh]
          split
          · next hcon => rw [this] at hcon; cases hcon.2
          · simp [hPidx, hidx, hPge, hPpif, hPpir]
        rw [hprinted, hhead]
        rw [ih (i + 1) _ hnopop.2.1 hnopop.2.2.1 hnopop.2.2.2
          (by rw [hnopop.1, ← hidx]; exact hpw)
          (by
            rw [hnopop.1]
            intro j hj
            rcases List.mem_cons.mp hj with hje | hjr
            · omega
            · have := hpw'.1 j hjr; omega)]
        rw [hnopop.1, hidx, List.range'_succ]
        simp only [List.map_cons, List.mem_cons]
        refine congrArg₂ _ ?_ (List.map_congr_left ?_)
        · have hnotmem : ¬(i = head ∨ i ∈ rest) := by
            rintro (hje | hjr)
            · omega
            · have := hpw'.1 i hjr; omega
          simp only [decide_eq_decide, Option.some.injEq, List.mem_cons]
          constructor
          · intro hje; exact absurd hje hh
          · intro hor; exact absurd hor hnotmem
        · intro j hj; rfl

/-- Auxiliary: characterization of the recorded group-change row indices
after `init_group_rows` on a freshly constructed band. -/
theorem init_group_rows_indices {V : Type} [DecidableEq V]
    (g : Nat → Option V) (N : Nat) (band : TableBand V)
    (hge : band.group_expression = true) (hN : 0 < N)
    (hnext : band.next_group_expr_result = none) :
    (init_group_rows g N band).group_changed_row_indices =
      (List.range N).filter
        (fun j => if band.before_group then decide (g j ≠ groupPrevVal g j)
                  else decide (g j ≠ groupNextVal g N j)) := by
  rw [init_group_rows, if_pos ⟨hge, hN⟩]
  rw [initGroupRowsAux_indices g N N 0 _ (by omega)
    (by simp [TableBand.set_next_group_expression, hge])
    (fun _ => by simp [TableBand.set_next_group_expression])
    (fun _ => by simp [TableBand.set_next_group_expression, hnext, groupPrevVal])]
  simp [TableBand.set_next_group_expression, List.range_eq_range']

/-- **C2 counterexample**: the claim says recorded `group_changed_row_indices`
of a "before group" band always include row 0; but when the group expression
evaluates to Python `None` for row 0 (e.g. it references missing data), the
comparison `g(row 0) != None` against the initial `None` sentinel is false
and row 0 is *not* recorded: with one data row and a group expression that is
`None`, `init_group_rows` records no transition at all. -/
theorem c2_group_transitions_counterexample :
    (init_group_rows (fun _ => (none : Option Unit)) 1
      (beforeBand Unit)).group_changed_row_indices = [] ∧
    0 ∉ (init_group_rows (fun _ => (none : Option Unit)) 1
      (beforeBand Unit)).group_changed_row_indices := by
  constructor
  · rfl
  · decide

/-- **C2 (amended)**: after `TableElement.init_group_rows` on a table with
group values `g` over `N ≥ 1` rows, the recorded `group_changed_row_indices`
of a "before group" band are exactly the row indices `i < N` where `g(row i)`
differs from the *previous comparison value* — `g(row (i-1))` for `i > 0` and
the `None` sentinel for row 0 (so row 0 counts as a transition iff its group
value is not `None`); for an "after group" band they are exactly the indices
where `g(row i)` differs from the next comparison value — `g(row (i+1))`, or
`None` after the last row (the last row counts iff its value is not `None`).
During the sequential render pass the band is marked printed
(`group_changed` set by `prepare`, popped by
`update_group_changed_row_indices`) exactly at the recorded indices. -/
theorem c2_group_transitions_amended {V : Type} [DecidableEq V]
    (g : Nat → Option V) (N : Nat) (band : TableBand V)
    (hge : band.group_expression = true)
    (hN : 0 < N)
    (hnext : band.next_group_expr_result = none)
    (hpif : band.print_if = none)
    (hpir : band.print_if_result = true) :
    ((init_group_rows g N band).group_changed_row_indices =
      (List.range N).filter
        (fun j => if band.before_group then decide (g j ≠ groupPrevVal g j)
                  else decide (g j ≠ groupNextVal g N j))) ∧
    (tableBandMarks (init_group_rows g N band) 0 N =
      (List.range N).map
        (fun i => decide (i ∈ (init_group_rows g N band).group_changed_row_indices))) := by
  have hind := init_group_rows_indices g N band hge hN hnext
  refine ⟨hind, ?_⟩
  have hpres := initGroupRowsAux_preserves g N N 0
    (({ band with group_changed_row_indices := [] } :
      TableBand V).set_next_group_expression true (g 0))
  have hinit_eq : init_group_rows g N band =
      initGroupRowsAux g N 0 N
        (({ band with group_changed_row_indices := []} :
          TableBand V).set_next_group_expression true (g 0)) := by
    rw [init_group_rows, if_pos ⟨hge, hN⟩]
  rw [hinit_eq] at hind ⊢
  rw [tableBandMarks_spec N 0 _
    (hpres.2.1.trans hge)
    (hpres.2.2.1.trans hpif)
    (hpres.2.2.2.trans hpir)
    (by
      rw [hind]
      exact List.Pairwise.sublist (List.filter_sublist _) (List.pairwise_lt_range N))
    (fun j _ => Nat.zero_le j)]
  rw [List.range_eq_range']

/-- Witness for C2 (amended) with group values `1, 1, 2` over three rows and
a "before group" band: transitions recorded at rows 0 and 2, band printed
exactly there. -/
theorem c2_group_transitions_amended_witness :
    ((init_group_rows g112 3 (beforeBand Nat)).group_changed_row_indices =
      (List.range 3).filter
        (fun j => if (beforeBand Nat).before_group
                  then decide (g112 j ≠ groupPrevVal g112 j)
                  else decide (g112 j ≠ groupNextVal g112 3 j))) ∧
    (tableBandMarks (init_group_rows g112 3 (beforeBand Nat)) 0 3 =
      (List.range 3).map
        (fun i => decide (i ∈ (init_group_rows g112 3
          (beforeBand Nat)).group_changed_row_indices))) :=
  c2_group_transitions_amended g112 3 (beforeBand Nat) rfl (by decide) rfl rfl rfl

/-- Witness for C8 at the unit value with pattern `0`. -/
theorem c8_round_trip_formatting_witness :
    fill_parameters env8 fmtUnit locEn ['$', '{', 'x', '}'] 1 "content"
        none none false =
      .ok (if ({ mkParameter 3 ParameterType.number with
          pattern := ['0'] } : Parameter).pattern_has_currency then
        replaceCurrency ['N', '0'] locEn.pattern_currency_symbol else ['N', '0']) :=
  c8_round_trip_formatting env8 fmtUnit locEn
    { parameter := { mkParameter 3 ParameterType.number with pattern := ['0'] },
      value_exists := true, value := some () }
    () ['N', '0'] 1 "content" rfl rfl rfl rfl (by decide) rfl

/-- Auxiliary: the first component of `offsetFold` dominates the starting
accumulator and every predecessor `render_bottom` in the list. -/
theorem offsetFold_max_ge (ar : Arena) (y : ℚ) :
    ∀ (l : List Nat) (acc : ℚ × Option ℚ),
      acc.1 ≤ (offsetFold ar y l acc).1 ∧
      ∀ p ∈ l, (ar p).render_bottom ≤ (offsetFold ar y l acc).1 := by
  intro l
  induction l with
  | nil => intro acc; exact ⟨le_refl _, by simp⟩
  | cons pid rest ih =>
    intro acc
    rw [offsetFold]
    have hstep : acc.1 ≤
        (if (ar pid).render_bottom > acc.1 then (ar pid).render_bottom else acc.1) := by
      split <;> [exact le_of_lt (by assumption); exact le_refl _]
    have hstep2 : (ar pid).render_bottom ≤
        (if (ar pid).render_bottom > acc.1 then (ar pid).render_bottom else acc.1) := by
      split
      · exact le_refl _
      · next h => exact le_of_not_lt h
    obtain ⟨h1, h2⟩ := ih _
    constructor
    · exact le_trans hstep h1
    · intro p hp
      rcases List.mem_cons.mp hp with hpe | hpr
      · subst hpe; exact le_trans hstep2 h1
      · exact h2 p hpr

/-- Auxiliary: when every distance `y - bottom` over the list is
non-negative and the starting minimum is absent or non-negative, the final
minimum is absent or non-negative. -/
theorem offsetFold_min_nonneg (ar : Arena) (y : ℚ) :
    ∀ (l : List Nat) (acc : ℚ × Option ℚ),
      (∀ p ∈ l, (ar p).bottom ≤ y) →
      (acc.2 = none ∨ ∃ m, acc.2 = some m ∧ 0 ≤ m) →
      ((offsetFold ar y l acc).2 = none ∨
        ∃ m, (offsetFold ar y l acc).2 = some m ∧ 0 ≤ m) := by
  intro l
  induction l with
  | nil => intro acc _ hacc; exact hacc
  | cons pid rest ih =>
    intro acc hl hacc
    rw [offsetFold]
    refine ih _ (fun p hp => hl p (List.mem_cons_of_mem _ hp)) ?_
    have hd : 0 ≤ y - (ar pid).bottom :=
      sub_nonneg.mpr (hl pid (List.mem_cons_self _ _))
    rcases hacc with hnone | ⟨m, hm, hm0⟩
    · right
      exact ⟨y - (ar pid).bottom, by simp [hnone], hd⟩
    · right
      simp only [hm]
      by_cases hc : y - (ar pid).bottom < m
      · exact ⟨y - (ar pid).bottom, by simp [hc], hd⟩
      · exact ⟨m, by simp [hc], hm0⟩

/-- Auxiliary: under the `is_predecessor` invariant (`self.y ≥
predecessor.bottom` for every stored predecessor), `get_offset_y` of an
element with predecessors is at least every predecessor's rendered bottom:
it is the maximum `render_bottom` plus a non-negative minimum distance. -/
theorem elem_get_offset_y_ge (ar : Arena) (e : Elem)
    (hbot : ∀ p ∈ e.predecessors, (ar p).bottom ≤ e.y) :
    ∀ p ∈ e.predecessors, (ar p).render_bottom ≤ elem_get_offset_y ar e := by
  intro p hp
  rw [elem_get_offset_y]
  have hmax := (offsetFold_max_ge ar e.y e.predecessors (0, none)).2 p hp
  have hmin := offsetFold_min_nonneg ar e.y e.predecessors (0, none) hbot (Or.inl rfl)
  rcases hmin with hnone | ⟨m, hm, hm0⟩
  · rw [hnone]
    simpa using hmax
  · rw [hm]
    by_cases hz : m = 0
    · simpa [hz] using hmax
    · simp only [hz, if_false]
      have : (0 : ℚ) ≤ m := hm0
      linarith [hmax]

/-- Auxiliary: `Container.get_offset_y` of an element whose predecessor list
is non-empty is bounded below by every predecessor's rendered bottom. -/
theorem container_get_offset_y_ge (firstOff : ℚ) (ar : Arena) (e : Elem)
    (hbot : ∀ p ∈ e.predecessors, (ar p).bottom ≤ e.y) :
    ∀ p ∈ e.predecessors,
      (ar p).render_bottom ≤ Container.get_offset_y firstOff ar e := by
  intro p hp
  rw [Container.get_offset_y]
  cases hpr : e.predecessors with
  | nil => rw [hpr] at hp; cases hp
  | cons a b =>
    have := elem_get_offset_y_ge ar e hbot p hp
    simpa using this

/-- Auxiliary: `has_uncompleted_predecessor` is false exactly when every
predecessor is in the completed set with its rendering complete. -/
theorem has_uncompleted_predecessor_eq_false (ar : Arena) (e : Elem)
    (completed : List Nat) :
    has_uncompleted_predecessor ar e completed = false ↔
      ∀ p ∈ e.predecessors, p ∈ completed ∧ (ar p).rendering_complete = true := by
  rw [has_uncompleted_predecessor, List.any_eq_false]
  constructor
  · intro h p hp
    have hp2 := h p hp
    simp only [Bool.or_eq_true, Bool.not_eq_true', not_or, Bool.not_eq_false] at hp2
    exact ⟨by simpa using hp2.1, hp2.2⟩
  · intro h p hp
    obtain ⟨h1, h2⟩ := h p hp
    simp [h1, h2]

/-- Loop invariant of `crLoop`: layout fields are preserved, elements
completed before the call keep their state, the completed set only grows,
every completed element has `rendering_complete`, and every render slice
produced during the call belongs to an element all of whose predecessors
were completed in this call, with the element's render offset at least each
predecessor's rendered bottom. -/
theorem crLoop_spec (apb : Bool) (height firstOff : ℚ) :
    ∀ (pending : List Nat) (st : CRState),
      pending.Nodup →
      (∀ pid ∈ st.processed, pid ∉ pending) →
      (∀ pid ∈ st.processed, (st.arena pid).rendering_complete = true) →
      (∀ eid ∈ pending, ∀ p ∈ (st.arena eid).predecessors,
          (st.arena p).bottom ≤ (st.arena eid).y) →
      (∀ x, ((((crLoop apb height firstOff pending st).state).arena x).y = (st.arena x).y ∧
        (((crLoop apb height firstOff pending st).state).arena x).bottom = (st.arena x).bottom ∧
        (((crLoop apb height firstOff pending st).state).arena x).predecessors =
          (st.arena x).predecessors)) ∧
      (∀ pid ∈ st.processed,
        ((crLoop apb height firstOff pending st).state).arena pid = st.arena pid) ∧
      (∃ newp, ((crLoop apb height firstOff pending st).state).processed =
        st.processed ++ newp) ∧
      (∀ pid ∈ ((crLoop apb height firstOff pending st).state).processed,
        (((crLoop apb height firstOff pending st).state).arena pid).rendering_complete = true) ∧
      (∃ newr, ((crLoop apb height firstOff pending st).state).render_elements =
          st.render_elements ++ newr ∧
        ∀ id, RenderEntry.elem id ∈ newr →
          ∀ p ∈ (st.arena id).predecessors,
            p ∈ ((crLoop apb height firstOff pending st).state).processed ∧
            (((crLoop apb height firstOff pending st).state).arena p).rendering_complete = true ∧
            (((crLoop apb height firstOff pending st).state).arena p).render_bottom ≤
              (((crLoop apb height firstOff pending st).state).arena id).render_y) := by
  intro pending
  induction pending with
  | nil =>
    intro st _ _ hcomp _
    exact ⟨fun x => ⟨rfl, rfl, rfl⟩, fun pid _ => rfl,
      ⟨[], by simp [crLoop, CRLoopResult.state]⟩,
      by simpa [crLoop, CRLoopResult.state] using hcomp,
      ⟨[], by simp [crLoop, CRLoopResult.state], by simp⟩⟩
  | cons eid rest ih =>
    intro st hnodup hproc hcomp hbot
    have hnodup' := hnodup
    rw [List.nodup_cons] at hnodup'
    rw [crLoop]
    by_cases hucp : has_uncompleted_predecessor st.arena (st.arena eid) st.processed = true
    · -- predecessor incomplete: loop stops, state unchanged
      simp only [hucp, if_true]
      exact ⟨fun x => ⟨rfl, rfl, rfl⟩, fun pid _ => rfl,
        ⟨[], by simp [CRLoopResult.state]⟩,
        by simpa [CRLoopResult.state] using hcomp,
        ⟨[], by simp [CRLoopResult.state], by simp⟩⟩
    · rw [if_neg hucp]
      have hpredc := (has_uncompleted_predecessor_eq_false st.arena (st.arena eid)
        st.processed).mp (by simpa using hucp)
      by_cases hpb : (st.arena eid).isPageBreak = true
      · rw [if_pos hpb]
        by_cases hapb : apb = true
        · simp only [hapb, if_true]
          exact ⟨fun x => ⟨rfl, rfl, rfl⟩, fun pid _ => rfl,
            ⟨[], by simp [CRLoopResult.state]⟩,
            by simpa [CRLoopResult.state] using hcomp,
            ⟨[], by simp [CRLoopResult.state], by simp⟩⟩
        · simp only [hapb, Bool.false_eq_true, if_false]
          exact ⟨fun x => ⟨rfl, rfl, rfl⟩, fun pid _ => rfl,
            ⟨[], by simp [CRLoopResult.state]⟩,
            by simpa [CRLoopResult.state] using hcomp,
            ⟨[], by simp [CRLoopResult.state], by simp⟩⟩
      · rw [if_neg hpb]
        by_cases hprint : (st.arena eid).printed = true
        · rw [if_pos hprint]
          by_cases hoff : Container.get_offset_y firstOff st.arena (st.arena eid) ≥ height
          · rw [if_pos hoff]
            exact ⟨fun x => ⟨rfl, rfl, rfl⟩, fun pid _ => rfl,
              ⟨[], by simp [CRLoopResult.state]⟩,
              by simpa [CRLoopResult.state] using hcomp,
              ⟨[], by simp [CRLoopResult.state], by simp⟩⟩
          · rw [if_neg hoff]
            by_cases hfit : Container.get_offset_y firstOff st.arena (st.arena eid) +
                (st.arena eid).height ≤ height
            · -- element fits completely: it is emitted and completed
              rw [get_next_render_element_base, if_pos hfit]
              simp only [if_true, ite_true, true_and]
              set off := Container.get_offset_y firstOff st.arena (st.arena eid) with hoffd
              set e' : Elem := { st.arena eid with
                rendering_complete := true
                render_y := off
                render_bottom := off + (st.arena eid).height } with he'
              set stR : CRState := {
                arena := st.arena.set eid e'
                render_elements := st.render_elements ++ [RenderEntry.elem eid]
                render_elements_created := true
                processed := st.processed ++ [eid]
                max_bottom :=
                  if (st.arena eid).bottom > st.max_bottom then (st.arena eid).bottom
                  else st.max_bottom
                render_bottom :=
                  if off + (st.arena eid).height > st.render_bottom
                  then off + (st.arena eid).height else st.render_bottom
                next_offset_y := st.next_offset_y
                manual_page_break := st.manual_page_break } with hstR
              have hC : stR.arena eid = e' := by
                show (st.arena.set eid e') eid = e'
                unfold Arena.set
                simp
              have hB : ∀ x, x ≠ eid → stR.arena x = st.arena x := by
                intro x hx
                show (st.arena.set eid e') x = st.arena x
                unfold Arena.set
                rw [if_neg hx]
              have hA : ∀ x, (stR.arena x).y = (st.arena x).y ∧
                  (stR.arena x).bottom = (st.arena x).bottom ∧
                  (stR.arena x).predecessors = (st.arena x).predecessors := by
                intro x
                by_cases hx : x = eid
                · subst hx
                  rw [hC, he']
                  exact ⟨rfl, rfl, rfl⟩
                · rw [hB x hx]
                  exact ⟨rfl, rfl, rfl⟩
              have hneq : ∀ pid ∈ st.processed, pid ≠ eid := by
                intro pid hpid heq
                exact hproc pid hpid (heq ▸ List.mem_cons_self _ _)
              obtain ⟨ih1, ih2, ih3, ih4, ih5⟩ := ih stR hnodup'.2
                (by
                  intro pid hpid
                  rcases List.mem_append.mp hpid with hp1 | hp2
                  · intro hmem
                    exact hproc pid hp1 (List.mem_cons_of_mem _ hmem)
                  · rw [List.mem_singleton] at hp2
                    subst hp2
                    exact hnodup'.1)
                (by
                  intro pid hpid
                  rcases List.mem_append.mp hpid with hp1 | hp2
                  · rw [hB pid (hneq pid hp1)]
                    exact hcomp pid hp1
                  · rw [List.mem_singleton] at hp2
                    subst hp2
                    rw [hC, he'])
                (by
                  intro e2 he2 p hp
                  have ha2 := hA e2
                  have hap := hA p
                  rw [ha2.2.2] at hp
                  rw [hap.2.1, ha2.1]
                  exact hbot e2 (List.mem_cons_of_mem _ he2) p hp)
              refine ⟨?_, ?_, ?_, ?_, ?_⟩
              · intro x
                have h1 := ih1 x
                have h2 := hA x
                exact ⟨h1.1.trans h2.1, h1.2.1.trans h2.2.1, h1.2.2.trans h2.2.2⟩
              · intro pid hpid
                rw [ih2 pid (List.mem_append_left _ hpid)]
                exact hB pid (hneq pid hpid)
              · obtain ⟨np, hnp⟩ := ih3
                exact ⟨eid :: np, by rw [hnp]; simp⟩
              · exact ih4
              · obtain ⟨nr, hnr, hnr2⟩ := ih5
                refine ⟨RenderEntry.elem eid :: nr, by rw [hnr]; simp, ?_⟩
                intro id hid p hp
                rcases List.mem_cons.mp hid with hid1 | hid2
                · injection hid1 with hid1
                  rw [hid1] at hp ⊢
                  obtain ⟨hp1, hp2⟩ := hpredc p hp
                  have hpne : p ≠ eid := hneq p hp1
                  have hfinp : (crLoop apb height firstOff rest stR).state.arena p =
                      st.arena p := by
                    rw [ih2 p (List.mem_append_left _ hp1)]
                    exact hB p hpne
                  have hfine : (crLoop apb height firstOff rest stR).state.arena eid = e' := by
                    rw [ih2 eid (List.mem_append_right _ (List.mem_singleton_self _))]
                    exact hC
                  refine ⟨?_, ?_, ?_⟩
                  · obtain ⟨np, hnp⟩ := ih3
                    rw [hnp]
                    exact List.mem_append_left _ (List.mem_append_left _ hp1)
                  · rw [hfinp]
                    exact hp2
                  · rw [hfinp, hfine, he']
                    show (st.arena p).render_bottom ≤ off
                    rw [hoffd]
                    exact container_get_offset_y_ge firstOff st.arena (st.arena eid)
                      (hbot eid (List.mem_cons_self _ _)) p hp
                · exact hnr2 id hid2 p (by rw [(hA id).2.2]; exact hp)
            · -- element does not fit: it defers, the loop continues
              rw [get_next_render_element_base, if_neg hfit]
              simp only [Bool.false_eq_true, if_false, false_and, ite_false]
              set stD : CRState := {
                arena := st.arena.set eid (st.arena eid)
                render_elements := st.render_elements
                render_elements_created := st.render_elements_created
                processed := st.processed
                max_bottom := st.max_bottom
                render_bottom := st.render_bottom
                next_offset_y :=
                  match st.next_offset_y with
                  | none => some (st.arena eid).y
                  | some v => some v
                manual_page_break := st.manual_page_break } with hstD
              have hD : ∀ x, stD.arena x = st.arena x := by
                intro x
                show (st.arena.set eid (st.arena eid)) x = st.arena x
                unfold Arena.set
                by_cases hx : x = eid
                · rw [if_pos hx, hx]
                · rw [if_neg hx]
              obtain ⟨ih1, ih2, ih3, ih4, ih5⟩ := ih stD hnodup'.2
                (fun pid hpid hmem => hproc pid hpid (List.mem_cons_of_mem _ hmem))
                (by
                  intro pid hpid
                  rw [hD pid]
                  exact hcomp pid hpid)
                (by
                  intro e2 he2 p hp
                  rw [hD e2] at hp
                  rw [hD p, hD e2]
                  exact hbot e2 (List.mem_cons_of_mem _ he2) p hp)
              cases hres : crLoop apb height firstOff rest stD with
              | normal rem st2 =>
                rw [hres] at ih1 ih2 ih3 ih4 ih5
                simp only [hres, CRLoopResult.state] at ih1 ih2 ih3 ih4 ih5 ⊢
                refine ⟨?_, ?_, ?_, ?_, ?_⟩
                · intro x
                  exact ⟨(ih1 x).1.trans (congrArg Elem.y (hD x)),
                    (ih1 x).2.1.trans (congrArg Elem.bottom (hD x)),
                    (ih1 x).2.2.trans (congrArg Elem.predecessors (hD x))⟩
                · intro pid hpid
                  exact (ih2 pid hpid).trans (hD pid)
                · exact ih3
                · exact ih4
                · obtain ⟨nr, hnr, hnr2⟩ := ih5
                  refine ⟨nr, hnr, fun id hid p hp => hnr2 id hid p ?_⟩
                  show p ∈ (stD.arena id).predecessors
                  rw [hD id]
                  exact hp
              | pageBreakForbidden st2 =>
                rw [hres] at ih1 ih2 ih3 ih4 ih5
                simp only [hres, CRLoopResult.state] at ih1 ih2 ih3 ih4 ih5 ⊢
                refine ⟨?_, ?_, ?_, ?_, ?_⟩
                · intro x
                  exact ⟨(ih1 x).1.trans (congrArg Elem.y (hD x)),
                    (ih1 x).2.1.trans (congrArg Elem.bottom (hD x)),
                    (ih1 x).2.2.trans (congrArg Elem.predecessors (hD x))⟩
                · intro pid hpid
                  exact (ih2 pid hpid).trans (hD pid)
                · exact ih3
                · exact ih4
                · obtain ⟨nr, hnr, hnr2⟩ := ih5
                  refine ⟨nr, hnr, fun id hid p hp => hnr2 id hid p ?_⟩
                  show p ∈ (stD.arena id).predecessors
                  rw [hD id]
                  exact hp
        · -- not printed: the element is finished empty and completed
          rw [if_neg hprint]
          simp only
          set off := Container.get_offset_y firstOff st.arena (st.arena eid) with hoffd
          set eF : Elem := finish_empty_element (st.arena eid) off with heF
          set stF : CRState := {
            arena := st.arena.set eid eF
            render_elements := st.render_elements
            render_elements_created := st.render_elements_created
            processed := st.processed ++ [eid]
            max_bottom := st.max_bottom
            render_bottom := st.render_bottom
            next_offset_y := st.next_offset_y
            manual_page_break := st.manual_page_break } with hstF
          have hC : stF.arena eid = eF := by
            show (st.arena.set eid eF) eid = eF
            unfold Arena.set
            simp
          have hB : ∀ x, x ≠ eid → stF.arena x = st.arena x := by
            intro x hx
            show (st.arena.set eid eF) x = st.arena x
            unfold Arena.set
            rw [if_neg hx]
          have hA : ∀ x, (stF.arena x).y = (st.arena x).y ∧
              (stF.arena x).bottom = (st.arena x).bottom ∧
              (stF.arena x).predecessors = (st.arena x).predecessors := by
            intro x
            by_cases hx : x = eid
            · subst hx
              rw [hC, heF]
              exact ⟨rfl, rfl, rfl⟩
            · rw [hB x hx]
              exact ⟨rfl, rfl, rfl⟩
          have hneq : ∀ pid ∈ st.processed, pid ≠ eid := by
            intro pid hpid heq
            exact hproc pid hpid (heq ▸ List.mem_cons_self _ _)
          obtain ⟨ih1, ih2, ih3, ih4, ih5⟩ := ih stF hnodup'.2
            (by
              intro pid hpid
              rcases List.mem_append.mp hpid with hp1 | hp2
              · intro hmem
                exact hproc pid hp1 (List.mem_cons_of_mem _ hmem)
              · rw [List.mem_singleton] at hp2
                subst hp2
                exact hnodup'.1)
            (by
              intro pid hpid
              rcases List.mem_append.mp hpid with hp1 | hp2
              · rw [hB pid (hneq pid hp1)]
                exact hcomp pid hp1
              · rw [List.mem_singleton] at hp2
                subst hp2
                rw [hC, heF]
                rfl)
            (by
              intro e2 he2 p hp
              have ha2 := hA e2
              have hap := hA p
              rw [ha2.2.2] at hp
              rw [hap.2.1, ha2.1]
              exact hbot e2 (List.mem_cons_of_mem _ he2) p hp)
          refine ⟨?_, ?_, ?_, ?_, ?_⟩
          · intro x
            have h1 := ih1 x
            have h2 := hA x
            exact ⟨h1.1.trans h2.1, h1.2.1.trans h2.2.1, h1.2.2.trans h2.2.2⟩
          · intro pid hpid
            rw [ih2 pid (List.mem_append_left _ hpid)]
            exact hB pid (hneq pid hpid)
          · obtain ⟨np, hnp⟩ := ih3
            exact ⟨eid :: np, by rw [hnp]; simp⟩
          · exact ih4
          · obtain ⟨nr, hnr, hnr2⟩ := ih5
            refine ⟨nr, hnr, fun id hid p hp => hnr2 id hid p ?_⟩
            show p ∈ (stF.arena id).predecessors
            rw [(hA id).2.2]
            exact hp

/-- The inner successor loop of the post-loop predecessor clearing only
touches the `predecessors` field: rendering state is untouched. -/
theorem clearPredecessorsInner_preserves (pid : Nat) :
    ∀ (l : List Nat) (ar : Arena) (x : Nat),
      ((l.foldl (fun ar2 sid => ar2.set sid (clear_predecessor (ar2 sid) pid)) ar) x).render_y
          = (ar x).render_y ∧
      ((l.foldl (fun ar2 sid => ar2.set sid (clear_predecessor (ar2 sid) pid)) ar) x).render_bottom
          = (ar x).render_bottom ∧
      ((l.foldl (fun ar2 sid => ar2.set sid (clear_predecessor (ar2 sid) pid)) ar) x).rendering_complete
          = (ar x).rendering_complete := by
  intro l
  induction l with
  | nil =>
    intro ar x
    exact ⟨rfl, rfl, rfl⟩
  | cons s t ih =>
    intro ar x
    rw [List.foldl_cons]
    have h1 := ih (ar.set s (clear_predecessor (ar s) pid)) x
    have h2 : ((ar.set s (clear_predecessor (ar s) pid)) x).render_y = (ar x).render_y ∧
        ((ar.set s (clear_predecessor (ar s) pid)) x).render_bottom = (ar x).render_bottom ∧
        ((ar.set s (clear_predecessor (ar s) pid)) x).rendering_complete =
          (ar x).rendering_complete := by
      unfold Arena.set
      by_cases hx : x = s
      · subst hx
        simp [clear_predecessor]
      · simp [hx]
    exact ⟨h1.1.trans h2.1, h1.2.1.trans h2.2.1, h1.2.2.trans h2.2.2⟩

/-- `clearPredecessors` only removes predecessor links: the rendering fields
of every element are unchanged. -/
theorem clearPredecessors_preserves :
    ∀ (pr : List Nat) (ar : Arena) (x : Nat),
      ((clearPredecessors ar pr) x).render_y = (ar x).render_y ∧
      ((clearPredecessors ar pr) x).render_bottom = (ar x).render_bottom ∧
      ((clearPredecessors ar pr) x).rendering_complete = (ar x).rendering_complete := by
  intro pr
  induction pr with
  | nil =>
    intro ar x
    exact ⟨rfl, rfl, rfl⟩
  | cons p t ih =>
    intro ar x
    rw [clearPredecessors, List.foldl_cons]
    have h2 := clearPredecessorsInner_preserves p ((ar p).successors) ar x
    have h1 := ih ((ar p).successors.foldl
      (fun ar2 sid => ar2.set sid (clear_predecessor (ar2 sid) p)) ar) x
    exact ⟨h1.1.trans h2.1, h1.2.1.trans h2.2.1, h1.2.2.trans h2.2.2⟩

/-- **C1** (invariants, explicit).  Predecessor ordering in
`Container.create_render_elements`: `get_offset_y` places an element at or
below every predecessor's rendered bottom, and every render slice emitted
during a call belongs to an element all of whose predecessors finished
rendering in that same call (uncompleted predecessors stop the loop), so an
element is never rendered on a page where a predecessor is incomplete. -/
theorem c1_predecessor_ordering (c : Container)
    (container_top container_height : ℚ)
    (hnodup : c.sorted_elements.Nodup)
    (hbot : ∀ eid ∈ c.sorted_elements, ∀ p ∈ (c.arena eid).predecessors,
        (c.arena p).bottom ≤ (c.arena eid).y) :
    (∀ e : Elem, (∀ p ∈ e.predecessors, (c.arena p).bottom ≤ e.y) →
      ∀ p ∈ e.predecessors,
        (c.arena p).render_bottom ≤
          Container.get_offset_y c.first_element_offset_y c.arena e) ∧
    ∃ newr,
      ((c.create_render_elements container_top container_height).1.render_elements =
          c.render_elements ++ newr ∨
        (c.create_render_elements container_top container_height).1.render_elements =
          (c.render_elements ++ newr) ++ [RenderEntry.pageBreakMarker]) ∧
      ∀ id, RenderEntry.elem id ∈ newr →
        ∀ p ∈ (c.arena id).predecessors,
          ((c.create_render_elements container_top container_height).1.arena p).rendering_complete
              = true ∧
          ((c.create_render_elements container_top container_height).1.arena p).render_bottom ≤
            ((c.create_render_elements container_top container_height).1.arena id).render_y := by
  constructor
  · intro e he
    exact container_get_offset_y_ge c.first_element_offset_y c.arena e he
  · rw [Container.create_render_elements]
    set st0 : CRState := {
      arena := c.arena
      render_elements := c.render_elements
      render_elements_created := false
      processed := []
      max_bottom := c.max_bottom
      render_bottom := c.render_bottom
      next_offset_y := none
      manual_page_break := false } with hst0
    obtain ⟨spec1, spec2, spec3, spec4, spec5⟩ :=
      crLoop_spec c.allow_page_break container_height c.first_element_offset_y
        c.sorted_elements st0 hnodup
        (fun pid h => absurd h (List.not_mem_nil pid))
        (fun pid h => absurd h (List.not_mem_nil pid))
        hbot
    cases hres : crLoop c.allow_page_break container_height c.first_element_offset_y
        c.sorted_elements st0 with
    | pageBreakForbidden st =>
      rw [hres] at spec4 spec5
      simp only [CRLoopResult.state] at spec4 spec5
      obtain ⟨newr, hnr, hnr2⟩ := spec5
      dsimp only
      refine ⟨newr, Or.inl hnr, ?_⟩
      intro id hid p hp
      obtain ⟨hm, hcmp, hle⟩ := hnr2 id hid p hp
      exact ⟨hcmp, hle⟩
    | normal remaining st =>
      rw [hres] at spec4 spec5
      simp only [CRLoopResult.state] at spec4 spec5
      obtain ⟨newr, hnr, hnr2⟩ := spec5
      dsimp only
      by_cases hrem : remaining = []
      · subst hrem
        simp only [ne_eq, not_true_eq_false, false_and, if_false, ite_false]
        refine ⟨newr, Or.inl hnr, ?_⟩
        intro id hid p hp
        obtain ⟨hm, hcmp, hle⟩ := hnr2 id hid p hp
        exact ⟨hcmp, hle⟩
      · have hpres := clearPredecessors_preserves st.processed st.arena
        by_cases hapb : c.allow_page_break = true
        · simp only [ne_eq, hrem, not_false_eq_true, hapb, and_self, if_true, ite_true, if_pos]
          refine ⟨newr, Or.inr (by rw [hnr]), ?_⟩
          intro id hid p hp
          obtain ⟨hm, hcmp, hle⟩ := hnr2 id hid p hp
          refine ⟨?_, ?_⟩
          · rw [(hpres p).2.2]
            exact hcmp
          · rw [(hpres p).2.1, (hpres id).1]
            exact hle
        · simp only [ne_eq, hrem, not_false_eq_true, hapb, and_false, if_false, ite_false, ite_true, if_pos]
          refine ⟨newr, Or.inl hnr, ?_⟩
          intro id hid p hp
          obtain ⟨hm, hcmp, hle⟩ := hnr2 id hid p hp
          refine ⟨?_, ?_⟩
          · rw [(hpres p).2.2]
            exact hcmp
          · rw [(hpres p).2.1, (hpres id).1]
            exact hle

theorem c1_predecessor_ordering_witness :
    containerFlow.sorted_elements.Nodup ∧
    (∀ eid ∈ containerFlow.sorted_elements,
      ∀ p ∈ (containerFlow.arena eid).predecessors,
        (containerFlow.arena p).bottom ≤ (containerFlow.arena eid).y) ∧
    ((∀ e : Elem, (∀ p ∈ e.predecessors, (containerFlow.arena p).bottom ≤ e.y) →
      ∀ p ∈ e.predecessors,
        (containerFlow.arena p).render_bottom ≤
          Container.get_offset_y containerFlow.first_element_offset_y containerFlow.arena e) ∧
    ∃ newr,
      ((containerFlow.create_render_elements 0 90).1.render_elements =
          containerFlow.render_elements ++ newr ∨
        (containerFlow.create_render_elements 0 90).1.render_elements =
          (containerFlow.render_elements ++ newr) ++ [RenderEntry.pageBreakMarker]) ∧
      ∀ id, RenderEntry.elem id ∈ newr →
        ∀ p ∈ (containerFlow.arena id).predecessors,
          ((containerFlow.create_render_elements 0 90).1.arena p).rendering_complete = true ∧
          ((containerFlow.create_render_elements 0 90).1.arena p).render_bottom ≤
            ((containerFlow.create_render_elements 0 90).1.arena id).render_y) :=
  ⟨by decide, by norm_num [containerFlow, arenaFlow, mkElem],
    c1_predecessor_ordering containerFlow 0 90 (by decide)
      (by norm_num [containerFlow, arenaFlow, mkElem])⟩

/-- **C3 counterexample**: the claim says a `PageBreakElement` in a container
with `allow_page_break = False` raises a fatal size error; the code instead
clears `sorted_elements` and returns `True` (containers.py lines 113-115) —
the concrete run completes normally, reporting the container fully rendered
with the page break (and anything after it) silently discarded. -/
theorem c3_page_break_forbidden_counterexample :
    (containerNoBreak.create_render_elements 0 100).2 = true ∧
    (containerNoBreak.create_render_elements 0 100).1.sorted_elements = [] ∧
    (containerNoBreak.create_render_elements 0 100).1.render_elements = [] := by
  refine ⟨rfl, rfl, rfl⟩

/-- **C3 (amended)**: when `Container.create_render_elements` reaches a
`PageBreakElement` (with no uncompleted predecessor) in a container whose
`allow_page_break` flag is false, it does not raise any error: it clears the
remaining `sorted_elements` and returns `True`, reporting the container as
fully rendered and silently discarding the page break and all elements after
it, with no render slices added for them. -/
theorem c3_page_break_forbidden_amended (c : Container) (top height : ℚ)
    (eid : Nat) (rest : List Nat)
    (hapb : c.allow_page_break = false)
    (hsorted : c.sorted_elements = eid :: rest)
    (hpb : (c.arena eid).isPageBreak = true)
    (hpred : (c.arena eid).predecessors = []) :
    (c.create_render_elements top height).2 = true ∧
    (c.create_render_elements top height).1.sorted_elements = [] ∧
    (c.create_render_elements top height).1.render_elements = c.render_elements := by
  have hloop : crLoop c.allow_page_break height c.first_element_offset_y
      c.sorted_elements
      { arena := c.arena, render_elements := c.render_elements,
        render_elements_created := false, processed := [],
        max_bottom := c.max_bottom, render_bottom := c.render_bottom,
        next_offset_y := none, manual_page_break := false } =
      .pageBreakForbidden
        { arena := c.arena, render_elements := c.render_elements,
          render_elements_created := false, processed := [],
          max_bottom := c.max_bottom, render_bottom := c.render_bottom,
          next_offset_y := none, manual_page_break := false } := by
    rw [hsorted, crLoop]
    rw [if_neg (by simp [has_uncompleted_predecessor, hpred])]
    rw [if_pos hpb, if_neg (by simp [hapb])]
  rw [Container.create_render_elements, hloop]
  exact ⟨rfl, rfl, rfl⟩

/-- Witness for C3 (amended) at the concrete non-breaking container. -/
theorem c3_page_break_forbidden_amended_witness :
    (containerNoBreak.create_render_elements 0 100).2 = true ∧
    (containerNoBreak.create_render_elements 0 100).1.sorted_elements = [] ∧
    (containerNoBreak.create_render_elements 0 100).1.render_elements =
      containerNoBreak.render_elements :=
  c3_page_break_forbidden_amended containerNoBreak 0 100 1 [] rfl rfl rfl rfl

/-- **C6 counterexample**: the claim says a manual page break inside the
section content band stops emission *without changing the section's row
index*; in the run below (two data rows, content band consisting of a manual
page break that completes the band) the section increments `row_index` from
0 to 1 before stopping (elements.py lines 1623-1631). -/
theorem c6_section_page_break_counterexample :
    ((secC6.get_next_render_element 0 0 100).map
      (fun r => (r.1.row_index, r.2.2))) = .ok (1, false) ∧ (1 : Nat) ≠ 0 := by
  exact ⟨rfl, by decide⟩

/-- **C6 (amended)**: when a manual page break occurs inside the content
band's inner container during `SectionElement.get_next_render_element`
(section at a row with no header pending), there are two cases, neither of
which matches the claim as stated:
(i) if the band's container still has unrendered elements after the break
(`rendering_complete` false), the section stops emitting for the current page
*without resetting* the content band's inner container and without changing
`row_index`, resuming the same row on the next page with its progress kept;
(ii) if the page break completed the band (`rendering_complete` true,
`manual_page_break` true) and more rows remain, the section *increments*
`row_index`, resets the content band's inner container, and stops emitting,
resuming at the next row. -/
theorem c6_section_page_break_amended (sec : Section)
    (offset_y top height : ℚ) (content1 : SectionBand)
    (hnohdr : sec.print_header = false)
    (hrows : sec.row_index < sec.row_count)
    (hcontent : sec.content.create_render_elements (offset_y + 0) top height =
      .ok content1) :
    (content1.rendering_complete = false →
      sec.get_next_render_element offset_y top height =
        .ok ({ sec with
                render_y := offset_y
                render_bottom := offset_y
                content := content1 },
          (({ render_y := offset_y, height := 0, bands := [] } :
            SectionRender).add_section_band content1), false)) ∧
    (content1.rendering_complete = true →
      content1.container.manual_page_break = true →
      sec.row_index + 1 < sec.row_count →
      sec.get_next_render_element offset_y top height =
        .ok ({ sec with
                render_y := offset_y
                render_bottom := offset_y
                content := { content1 with container := content1.container.reset }
                row_index := sec.row_index + 1 },
          (({ render_y := offset_y, height := 0, bands := [] } :
            SectionRender).add_section_band content1), false)) := by
  obtain ⟨k, hk⟩ : ∃ k, sec.row_count - sec.row_index = k + 1 :=
    ⟨sec.row_count - sec.row_index - 1, by omega⟩
  constructor
  · intro hcomp
    rw [Section.get_next_render_element]
    simp only [hnohdr, bind, Except.bind, pure, Except.pure, hk, sectionRowsLoop,
      hcontent, hcomp]
    rfl
  · intro hcomp hmpb hmore
    rw [Section.get_next_render_element]
    simp only [hnohdr, bind, Except.bind, pure, Except.pure, hk, sectionRowsLoop,
      hcontent, hcomp, hmpb]
    simp only [true_and, if_pos hmore]
    rfl

/-- Witness for C6 (amended), case (ii), at the concrete two-row section. -/
theorem c6_section_page_break_amended_witness :
    secC6.get_next_render_element 0 0 100 =
      .ok ({ secC6 with
              render_y := 0
              render_bottom := 0
              content := { c6content with container := c6content.container.reset }
              row_index := secC6.row_index + 1 },
        (({ render_y := 0, height := 0, bands := [] } :
          SectionRender).add_section_band c6content), false) :=
  (c6_section_page_break_amended secC6 0 0 100 c6content rfl (by decide) rfl).2
    rfl rfl (by decide)

/-- Evaluation of the page loop on the never-fitting content: the `some 3`
page limit converts the endless loop into the internal error raise. -/
theorem renderPagesLoopC4_eval : renderPagesLoop dpC4 (some 3) 10 1 containerC4 =
    .fail (.reportBroInternalError "Too many pages (probably an endless loop)") := by
  norm_num [renderPagesLoop, pageContentHeight, dpC4, containerC4, arenaC4, mkElem,
    pageLimitTruthy, Container.create_render_elements, crLoop,
    has_uncompleted_predecessor, Container.get_offset_y, elem_get_offset_y,
    offsetFold, get_next_render_element_base, finish_empty_element,
    clearPredecessors, clear_predecessor, Arena.set, CRLoopResult.state]

/-- **C4 counterexample** (termination_resources, explicit).  On content that
never fits a page, the bounded page loop raises
`ReportBroInternalError('Too many pages (probably an endless loop)')`, not
the \x22invalid size\x22 `ReportBroError` the spec names: no `ReportBroError`
of any kind is produced by the page-limit check. -/
theorem c4_bounded_pagination_counterexample :
    renderPagesLoop dpC4 (some 3) 10 1 containerC4 =
      .fail (.reportBroInternalError "Too many pages (probably an endless loop)") ∧
    ∀ e : PyError, renderPagesLoop dpC4 (some 3) 10 1 containerC4 ≠
      .fail (.reportBroError e) := by
  refine ⟨renderPagesLoopC4_eval, fun e hc => ?_⟩
  rw [renderPagesLoopC4_eval] at hc
  simp at hc

/-- **C4 amended** (termination_resources, explicit).  Bounded pagination:
with a truthy `page_limit` (neither `None` nor `0`), the page loop either
breaks on completion or raises `ReportBroInternalError('Too many pages
(probably an endless loop)')` within `page_limit + 1` iterations -- it never
runs out of fuel. -/
theorem c4_bounded_pagination_amended (dp : DocumentProperties) (L : Nat) :
    ∀ (fuel page_count : Nat) (c : Container),
      L ≠ 0 → page_count ≤ L + 1 → L + 2 ≤ page_count + fuel →
      (∃ pc c2, renderPagesLoop dp (some L) fuel page_count c =
          .completed pc c2) ∨
      renderPagesLoop dp (some L) fuel page_count c =
        .fail (.reportBroInternalError "Too many pages (probably an endless loop)") := by
  intro fuel
  induction fuel with
  | zero =>
    intro page_count c hL hp hf
    omega
  | succ n ih =>
    intro page_count c hL hp hf
    rw [renderPagesLoop]
    by_cases hcomp :
        (c.create_render_elements 0 (pageContentHeight dp page_count)).2 = true
    · rw [if_pos hcomp]
      exact Or.inl ⟨page_count,
        (c.create_render_elements 0 (pageContentHeight dp page_count)).1, rfl⟩
    · rw [if_neg hcomp]
      by_cases hgt : page_count + 1 > L
      · rw [if_pos ⟨by simp [pageLimitTruthy, hL], hgt⟩]
        exact Or.inr rfl
      · rw [if_neg (by
          rintro ⟨-, h2⟩
          simp only [Option.getD] at h2
          omega)]
        exact ih (page_count + 1)
          (c.create_render_elements 0 (pageContentHeight dp page_count)).1
          hL (by omega) (by omega)

/-- Witness for C4 (amended) at the concrete never-fitting container, page
limit 3 and fuel 10. -/
theorem c4_bounded_pagination_amended_witness :
    ((3 : Nat) ≠ 0 ∧ (1 : Nat) ≤ 3 + 1 ∧ (3 : Nat) + 2 ≤ 1 + 10) ∧
    ((∃ pc c2, renderPagesLoop dpC4 (some 3) 10 1 containerC4 =
        .completed pc c2) ∨
      renderPagesLoop dpC4 (some 3) 10 1 containerC4 =
        .fail (.reportBroInternalError "Too many pages (probably an endless loop)")) :=
  ⟨⟨by decide, by decide, by decide⟩,
    c4_bounded_pagination_amended dpC4 3 10 1 containerC4
      (by decide) (by decide) (by decide)⟩

/-- **C5** (error_handling, explicit).  `TextElement.get_next_render_element`
with `always_print_on_same_page` and `first_render_element` defers (returns
no slice, element unchanged) when its total height exceeds the available
height and it is not at the top of an empty page; at the top of an empty
page (`offset_y = 0` and `container_top = 0`), if even the first line does
not fit, it raises the fatal `errorMsgInvalidSize` error instead. -/
theorem c5_text_always_on_same_page (t : TextElement)
    (offset_y container_top container_height : ℚ) :
    ((t.always_print_on_same_page = true ∧ t.first_render_element = true ∧
        t.total_height > container_height - offset_y ∧
        (offset_y ≠ 0 ∨ container_top ≠ 0)) →
      t.get_next_render_element offset_y container_top container_height =
        .ok (Option.none, t, false)) ∧
    ((t.space_top = 0 ∧ t.line_index = 0 ∧ 0 < t.lines_count ∧
        t.text_lines.getD 0 0 + t.used_style.padding_top +
          (if t.lines_count - 1 ≤ 0 then t.used_style.padding_bottom else 0) >
            container_height) →
      t.get_next_render_element 0 0 container_height =
        .error (.reportBroError
          { msg_key := "errorMsgInvalidSize", object_id := some t.id,
            field := some "height" })) := by
  constructor
  · intro h
    rw [TextElement.get_next_render_element]
    dsimp only
    rw [if_pos h]
  · rintro ⟨h1, h2, h3, h4⟩
    rw [TextElement.get_next_render_element]
    dsimp only
    rw [if_neg (show ¬(t.always_print_on_same_page = true ∧
        t.first_render_element = true ∧
        t.total_height > container_height - 0 ∧
        ((0 : ℚ) ≠ 0 ∨ (0 : ℚ) ≠ 0)) by
      rintro ⟨-, -, -, h | h⟩ <;> exact h rfl)]
    simp only [h1, h2, gt_iff_lt, lt_self_iff_false, if_false, ite_false,
      ite_true, eq_self_iff_true, true_and, sub_zero, lt_irrefl]
    have hloop : textLineLoop t.used_style.padding_top t.used_style.padding_bottom
        t.text_lines t.lines_count 0 container_height 0 0 [] =
        (0, container_height, 0, 0, []) := by
      rw [textLineLoop]
      rw [if_pos h3]
      dsimp only
      by_cases hone : t.lines_count - 1 ≤ 0
      · rw [if_pos hone] at h4
        simp only [eq_self_iff_true, ite_true, if_pos hone]
        rw [if_pos h4]
      · rw [if_neg hone] at h4
        rw [add_zero] at h4
        simp only [eq_self_iff_true, ite_true, if_neg hone]
        rw [if_pos h4]
    rw [hloop]
    dsimp only
    rw [if_neg (show ¬(({ t with space_top := 0, line_index := 0 } :
        TextElement).lines_count ≤ 0 ∧ 0 < t.space_bottom) by
      rintro ⟨ha, -⟩
      simp only [TextElement.lines_count] at ha h3
      omega)]
    simp only [TextElement.lines_count] at h3 ⊢
    simp [h3]

/-- Witness for C5: the deferral at offset 60 of a 100 unit container, and
the raise for a 30 unit line at the top of an empty 20 unit container. -/
theorem c5_text_always_on_same_page_witness :
    (tC5a.always_print_on_same_page = true ∧ tC5a.first_render_element = true ∧
      tC5a.total_height > 100 - 60 ∧ ((60 : ℚ) ≠ 0 ∨ (0 : ℚ) ≠ 0)) ∧
    tC5a.get_next_render_element 60 0 100 = .ok (Option.none, tC5a, false) ∧
    (tC5b.space_top = 0 ∧ tC5b.line_index = 0 ∧ 0 < tC5b.lines_count ∧
      tC5b.text_lines.getD 0 0 + tC5b.used_style.padding_top +
        (if tC5b.lines_count - 1 ≤ 0 then tC5b.used_style.padding_bottom else 0) >
          20) ∧
    tC5b.get_next_render_element 0 0 20 =
      .error (.reportBroError
        { msg_key := "errorMsgInvalidSize", object_id := some tC5b.id,
          field := some "height" }) :=
  ⟨⟨rfl, rfl, by norm_num [tC5a], Or.inl (by norm_num)⟩,
    (c5_text_always_on_same_page tC5a 60 0 100).1
      ⟨rfl, rfl, by norm_num [tC5a], Or.inl (by norm_num)⟩,
    ⟨rfl, rfl, by decide, by norm_num [tC5b, TextElement.lines_count]⟩,
    (c5_text_always_on_same_page tC5b 0 0 20).2
      ⟨rfl, rfl, by decide, by norm_num [tC5b, TextElement.lines_count]⟩⟩

end ReportBro
